import Mathlib

/-!
# PCA9536 driver (4-channel GPIO I2C expander): embedding and verification

The driver `PCA9536.cpp` is embedded as explicit state passing over

* a model of the Arduino `Wire` object (transmit buffer, receive buffer, a log of bus
  activity) with the expander chip behind it, and
* the driver object itself, whose only field is `_comBuffer`.

Bytes are natural numbers; every place where the C++ stores a wider value into a `byte`
reduces modulo 256. The chip follows the data model of the spec: of each register only the
four pin bits are meaningful, bits 4 to 7 are ignored on a write and are 0 on a read. Bus
faults are scripted by two lists carried in the `Wire` model: the
statuses that the coming `endTransmission` calls return, and the replies that the coming
`requestFrom` calls receive.
-/

namespace Pca9536

/-! ## Constants and enumerations of `PCA9536.h` -/

/-- Modelled from the spec: the header `PCA9536.h` is not among the sources. The device
address is "a fixed 7-bit identifier"; the number is the one of the chip's data sheet and no
result below depends on it. -/
def DEV_ADDR : Nat := 0x41

/-- Modelled from the spec: `PCA9536.h` is absent; "Read transactions always request exactly
1 byte". -/
def NUM_BYTES : Nat := 1

/-- Modelled from the spec: `PCA9536.h` is absent; "all-input = 0x0F". -/
def ALL_INPUT : Nat := 0x0F

/-- Modelled from the spec: `PCA9536.h` is absent; "all-output = 0x00". -/
def ALL_OUTPUT : Nat := 0x00

/-- Modelled from the spec: `PCA9536.h` is absent; "all-low = 0x00". -/
def ALL_LOW : Nat := 0x00

/-- Modelled from the spec: `PCA9536.h` is absent; "all-high = 0x0F". -/
def ALL_HIGH : Nat := 0x0F

/-- Modelled from the spec: `PCA9536.h` is absent; "all-non-inverted = 0x00". -/
def ALL_NON_INVERTED : Nat := 0x00

/-- Modelled from the spec: `PCA9536.h` is absent; "all-inverted = 0x0F". -/
def ALL_INVERTED : Nat := 0x0F

/-- Modelled from the spec: `PCA9536.h` is absent; "0 signals success". -/
def COM_SUCCESS : Nat := 0

/-- Modelled from the spec: `PCA9536.h` is absent; the four register pointers
0x00 INPUT, 0x01 OUTPUT, 0x02 POLARITY, 0x03 CONFIGURATION. -/
inductive reg_ptr_t where
  | REG_INPUT
  | REG_OUTPUT
  | REG_POLARITY
  | REG_CONFIG
  deriving DecidableEq, Repr

/-- The byte value of a register pointer. -/
def reg_ptr_t.toNat : reg_ptr_t → Nat
  | .REG_INPUT => 0
  | .REG_OUTPUT => 1
  | .REG_POLARITY => 2
  | .REG_CONFIG => 3

/-- Modelled from the spec: `PCA9536.h` is absent; a pin identifier is "an integer in
{0,1,2,3}". The names `IO0` .. `IO3` are the ones `setPins` uses. -/
inductive pin_t where
  | IO0
  | IO1
  | IO2
  | IO3
  deriving DecidableEq, Repr

/-- The bit position of a pin. -/
def pin_t.toNat : pin_t → Nat
  | .IO0 => 0
  | .IO1 => 1
  | .IO2 => 2
  | .IO3 => 3

/-- Modelled from the spec: `PCA9536.h` is absent; mode is OUTPUT(0) or INPUT(1). -/
inductive mode_t where
  | IO_OUTPUT
  | IO_INPUT
  deriving DecidableEq, Repr

/-- The byte value of a mode. -/
def mode_t.toNat : mode_t → Nat
  | .IO_OUTPUT => 0
  | .IO_INPUT => 1

/-- Modelled from the spec: `PCA9536.h` is absent; state is LOW(0) or HIGH(1). -/
inductive state_t where
  | IO_LOW
  | IO_HIGH
  deriving DecidableEq, Repr

/-- The byte value of a state. -/
def state_t.toNat : state_t → Nat
  | .IO_LOW => 0
  | .IO_HIGH => 1

/-- Modelled from the spec: `PCA9536.h` is absent; polarity is NON_INVERTED(0) or
INVERTED(1). -/
inductive polarity_t where
  | IO_NON_INVERTED
  | IO_INVERTED
  deriving DecidableEq, Repr

/-- The byte value of a polarity. -/
def polarity_t.toNat : polarity_t → Nat
  | .IO_NON_INVERTED => 0
  | .IO_INVERTED => 1

/-! ## Integer helpers of the C++ / Arduino environment -/

/-- Storing an `int` into a `byte`: reduction modulo 256 (two's complement). -/
def byteOfInt (i : Int) : Nat := (i % 256).toNat

/-- Width of `unsigned long`, the type of the literal `1UL` in the Arduino bit macros. -/
def ULONG_BITS : Nat := 32

/-- Width of `int`, the type to which `byte` operands of `~`, `&`, `|`, `^`, `<<` are
promoted (16 on AVR). All such results are stored back into a `byte`. -/
def INT_BITS : Nat := 16

/-- The operator `~` on an unsigned value of the given width. On a promoted `byte` held in
an `int` of that width it yields the same bit pattern. -/
def bitNot (bits x : Nat) : Nat := 2 ^ bits - 1 - x % 2 ^ bits

/-- Arduino `bitRead(value, bit)`: `(((value) >> (bit)) & 0x01)`. -/
def bitRead (value bit : Nat) : Nat := (value >>> bit) &&& 0x01

/-- Arduino `bitSet(value, bit)`: `((value) |= (1UL << (bit)))` on a `byte` variable. -/
def bitSet (value bit : Nat) : Nat :=
  (value ||| ((1 <<< bit) % 2 ^ ULONG_BITS)) % 256

/-- Arduino `bitClear(value, bit)`: `((value) &= ~(1UL << (bit)))` on a `byte` variable. -/
def bitClear (value bit : Nat) : Nat :=
  (value &&& bitNot ULONG_BITS (1 <<< bit)) % 256

/-- Arduino `bitWrite(value, bit, bitvalue)`:
`((bitvalue) ? bitSet(value, bit) : bitClear(value, bit))`. -/
def bitWrite (value bit bitvalue : Nat) : Nat :=
  if bitvalue ≠ 0 then bitSet value bit else bitClear value bit

/-! ## The expander chip behind the bus -/

/-- The chip: its four 8-bit registers and the register pointer set by the last command
byte. -/
structure Device where
  input : Nat
  output : Nat
  polarity : Nat
  config : Nat
  pointer : Nat
  deriving DecidableEq, Repr

/-- Bits 4 to 7 of every register are 0: the data model of the spec ("only the low 4 bits
are meaningful, with bits 4-7 always 0/ignored"), and what every register written through
`Device.store` satisfies. -/
def Device.valid (d : Device) : Prop :=
  d.input < 16 ∧ d.output < 16 ∧ d.polarity < 16 ∧ d.config < 16

instance (d : Device) : Decidable d.valid := by
  unfold Device.valid; infer_instance

/-- The register selected by a pointer value, as the chip presents it on a read: the four
pin bits, with bits 4 to 7 always 0. -/
def Device.reg (d : Device) (ptr : Nat) : Nat :=
  (match ptr with
    | 0 => d.input
    | 1 => d.output
    | 2 => d.polarity
    | _ => d.config) % 16

/-- A data byte arriving at the register the pointer selects: the four pin bits are kept
and bits 4 to 7 are ignored; the INPUT register is read-only and ignores the byte. -/
def Device.store (d : Device) (v : Nat) : Device :=
  match d.pointer with
  | 0 => d
  | 1 => { d with output := v % 16 }
  | 2 => { d with polarity := v % 16 }
  | _ => { d with config := v % 16 }

/-- An acknowledged write transaction: the first byte is the command byte, whose two low
bits select the register; every further byte is stored into that register. -/
def Device.receive (d : Device) : List Nat → Device
  | [] => d
  | cmd :: data => data.foldl Device.store { d with pointer := cmd % 4 }

/-! ## The `Wire` object -/

/-- One entry of the log of `Wire` activity. -/
inductive BusEvent where
  /-- A committed write transaction: address, bytes sent, status returned. -/
  | transmit (addr : Nat) (bytes : List Nat) (status : Nat)
  /-- A read request: address, number of bytes asked for, bytes received. -/
  | request (addr : Nat) (quantity : Nat) (reply : List Nat)
  /-- One byte taken out of the receive buffer by `Wire.read()`. -/
  | read (byte : Nat)
  deriving DecidableEq, Repr

/-- The `Wire` object with the chip behind it. `statuses` are the statuses the coming
`endTransmission` calls return (0 once the list is used up); `replies` are the contents the
coming `requestFrom` calls find in the receive buffer, `none` (also once the list is used
up) meaning that the chip answers as it should. -/
structure TwoWire where
  txAddress : Nat
  txBuffer : List Nat
  rxBuffer : List Nat
  device : Device
  statuses : List Nat
  replies : List (Option (List Nat))
  trace : List BusEvent
  deriving DecidableEq, Repr

namespace TwoWire

/-- All coming bus transactions succeed: every commit returns 0 and every read request is
answered by the chip. -/
def healthy (w : TwoWire) : Prop :=
  (∀ st ∈ w.statuses, st = 0) ∧ (∀ r ∈ w.replies, r = none)

instance (w : TwoWire) : Decidable w.healthy := by
  unfold healthy; infer_instance

/-- `Wire.beginTransmission(address)`. -/
def beginTransmission (w : TwoWire) (address : Nat) : TwoWire :=
  { w with txAddress := address, txBuffer := [] }

/-- `Wire.write(data)`: queue one byte. -/
def write (w : TwoWire) (data : Nat) : TwoWire :=
  { w with txBuffer := w.txBuffer ++ [data % 256] }

/-- `Wire.endTransmission()`: send the queued bytes and return the status. The chip takes
the bytes when the transaction is addressed to it and acknowledged. -/
def endTransmission (w : TwoWire) : Nat × TwoWire :=
  let status := w.statuses.headD 0
  let device :=
    if status = 0 ∧ w.txAddress = DEV_ADDR then w.device.receive w.txBuffer else w.device
  (status,
    { w with
      txBuffer := []
      device := device
      statuses := w.statuses.tail
      trace := w.trace ++ [BusEvent.transmit w.txAddress w.txBuffer status] })

/-- `Wire.requestFrom(address, quantity)`: fill the receive buffer and return the number of
bytes received. The chip answers with the register its pointer selects. -/
def requestFrom (w : TwoWire) (address quantity : Nat) : Nat × TwoWire :=
  let reply :=
    match w.replies.headD none with
    | some bytes => bytes
    | none =>
      if address = DEV_ADDR then List.replicate quantity (w.device.reg w.device.pointer)
      else []
  (reply.length,
    { w with
      rxBuffer := reply
      replies := w.replies.tail
      trace := w.trace ++ [BusEvent.request address quantity reply] })

/-- `Wire.available()`. -/
def available (w : TwoWire) : Nat := w.rxBuffer.length

/-- `Wire.read()`: the next received byte, or -1 when there is none. -/
def read (w : TwoWire) : Int × TwoWire :=
  match w.rxBuffer with
  | [] => (-1, w)
  | b :: rest => ((b : Int), { w with rxBuffer := rest, trace := w.trace ++ [BusEvent.read b] })

/-- The loop `while (Wire.available()) Wire.read();` with a bound on its iterations. -/
def drainLoop : Nat → TwoWire → TwoWire
  | 0, w => w
  | n + 1, w => if w.available ≠ 0 then drainLoop n w.read.2 else w

end TwoWire

/-! ## The driver -/

/-- The driver object together with the `Wire` object it talks to. -/
structure PCA9536 where
  _comBuffer : Nat
  Wire : TwoWire
  deriving DecidableEq, Repr

namespace PCA9536

/-- `PCA9536::ping`. -/
def ping (self : PCA9536) : Nat × PCA9536 :=
  let r := (self.Wire.beginTransmission DEV_ADDR).endTransmission
  (r.1, { self with Wire := r.2 })

/-- `PCA9536::initCall`. -/
def initCall (self : PCA9536) (regPtr : reg_ptr_t) : PCA9536 :=
  { self with Wire := (self.Wire.beginTransmission DEV_ADDR).write regPtr.toNat }

/-- `PCA9536::endCall`. -/
def endCall (self : PCA9536) : PCA9536 :=
  let r := self.Wire.endTransmission
  { _comBuffer := r.1, Wire := r.2 }

/-- `PCA9536::getComResult`. -/
def getComResult (self : PCA9536) : Nat := self._comBuffer

/-- `PCA9536::getReg`. The drain loop runs with as many iterations as there are bytes
available, which empties the buffer (`drainLoop_available`). -/
def getReg (self : PCA9536) (regPtr : reg_ptr_t) : Nat × PCA9536 :=
  let s1 := (self.initCall regPtr).endCall
  if s1._comBuffer = COM_SUCCESS then
    let w2 := (s1.Wire.requestFrom DEV_ADDR NUM_BYTES).2
    if w2.available = NUM_BYTES then
      let r := w2.read
      (byteOfInt r.1, { s1 with Wire := r.2 })
    else
      let s3 : PCA9536 := { s1 with Wire := w2.drainLoop w2.available }
      let p := s3.ping
      (0, { p.2 with _comBuffer := p.1 })
  else
    (0, s1)

/-- `PCA9536::getPin`. -/
def getPin (self : PCA9536) (pin : pin_t) (regPtr : reg_ptr_t) : Nat × PCA9536 :=
  let r := self.getReg regPtr
  (bitRead r.1 pin.toNat, r.2)

/-- `PCA9536::setReg`. -/
def setReg (self : PCA9536) (regPtr : reg_ptr_t) (newSetting : Nat) : PCA9536 :=
  if regPtr.toNat > 0 then
    let s1 := self.initCall regPtr
    let s2 : PCA9536 := { s1 with Wire := s1.Wire.write newSetting }
    s2.endCall
  else
    self

/-- `PCA9536::setPin`. -/
def setPin (self : PCA9536) (pin : pin_t) (regPtr : reg_ptr_t) (newSetting : Nat) : PCA9536 :=
  let r := self.getReg regPtr
  let newReg := bitWrite r.1 pin.toNat newSetting
  r.2.setReg regPtr newReg

/-- `PCA9536::setPins`. -/
def setPins (self : PCA9536) (regPtr : reg_ptr_t)
    (newSetting0 newSetting1 newSetting2 newSetting3 : Nat) : PCA9536 :=
  let r := self.getReg regPtr
  let newReg := bitWrite r.1 pin_t.IO0.toNat newSetting0
  let newReg := bitWrite newReg pin_t.IO1.toNat newSetting1
  let newReg := bitWrite newReg pin_t.IO2.toNat newSetting2
  let newReg := bitWrite newReg pin_t.IO3.toNat newSetting3
  r.2.setReg regPtr newReg

/-- `PCA9536::getMode`. -/
def getMode (self : PCA9536) (pin : pin_t) : Nat × PCA9536 :=
  self.getPin pin reg_ptr_t.REG_CONFIG

/-- `PCA9536::getState`. -/
def getState (self : PCA9536) (pin : pin_t) : Nat × PCA9536 :=
  let m := self.getMode pin
  m.2.getPin pin (if m.1 ≠ 0 then reg_ptr_t.REG_INPUT else reg_ptr_t.REG_OUTPUT)

/-- `PCA9536::getPolarity`. -/
def getPolarity (self : PCA9536) (pin : pin_t) : Nat × PCA9536 :=
  self.getPin pin reg_ptr_t.REG_POLARITY

/-- `PCA9536::setMode(pin_t, mode_t)`. -/
def setMode (self : PCA9536) (pin : pin_t) (newMode : mode_t) : PCA9536 :=
  self.setPin pin reg_ptr_t.REG_CONFIG newMode.toNat

/-- `PCA9536::setMode(mode_t)`, all pins. -/
def setModeAll (self : PCA9536) (newMode : mode_t) : PCA9536 :=
  self.setReg reg_ptr_t.REG_CONFIG (if newMode.toNat ≠ 0 then ALL_INPUT else ALL_OUTPUT)

/-- `PCA9536::setState(pin_t, state_t)`. -/
def setState (self : PCA9536) (pin : pin_t) (newState : state_t) : PCA9536 :=
  self.setPin pin reg_ptr_t.REG_OUTPUT newState.toNat

/-- `PCA9536::setState(state_t)`, all pins. -/
def setStateAll (self : PCA9536) (newState : state_t) : PCA9536 :=
  self.setReg reg_ptr_t.REG_OUTPUT (if newState.toNat ≠ 0 then ALL_HIGH else ALL_LOW)

/-- `PCA9536::setState(state_t, state_t, state_t, state_t)`, all pins with a pattern. -/
def setStatePattern (self : PCA9536) (newState0 newState1 newState2 newState3 : state_t) :
    PCA9536 :=
  self.setPins reg_ptr_t.REG_OUTPUT newState0.toNat newState1.toNat newState2.toNat
    newState3.toNat

/-- `PCA9536::toggleState(pin_t)`. The `int` result of `^` is stored into the `byte`
parameter of `setReg`. -/
def toggleState (self : PCA9536) (pin : pin_t) : PCA9536 :=
  let r := self.getReg reg_ptr_t.REG_OUTPUT
  r.2.setReg reg_ptr_t.REG_OUTPUT ((r.1 ^^^ ((1 <<< pin.toNat) % 2 ^ INT_BITS)) % 256)

/-- `PCA9536::toggleState()`, all pins. -/
def toggleStateAll (self : PCA9536) : PCA9536 :=
  let r := self.getReg reg_ptr_t.REG_OUTPUT
  r.2.setReg reg_ptr_t.REG_OUTPUT (bitNot INT_BITS r.1 % 256)

/-- `PCA9536::setPolarity(pin_t, polarity_t)`. -/
def setPolarity (self : PCA9536) (pin : pin_t) (newPolarity : polarity_t) : PCA9536 :=
  self.setPin pin reg_ptr_t.REG_POLARITY newPolarity.toNat

/-- `PCA9536::setPolarity(polarity_t)`, all pins. -/
def setPolarityAll (self : PCA9536) (newPolarity : polarity_t) : PCA9536 :=
  let r1 := self.getReg reg_ptr_t.REG_POLARITY
  let polarityVals := r1.1
  let r2 := r1.2.getReg reg_ptr_t.REG_CONFIG
  let polarityMask := r2.1
  let polarityNew := if newPolarity.toNat ≠ 0 then ALL_INVERTED else ALL_NON_INVERTED
  r2.2.setReg reg_ptr_t.REG_POLARITY
    (((polarityVals &&& bitNot INT_BITS polarityMask) ||| (polarityNew &&& polarityMask)) % 256)

/-- `PCA9536::reset`. -/
def reset (self : PCA9536) : PCA9536 :=
  let s := self.setModeAll mode_t.IO_INPUT
  let s := s.setStateAll state_t.IO_HIGH
  let s := s.setPolarityAll polarity_t.IO_NON_INVERTED
  let s := s.initCall reg_ptr_t.REG_INPUT
  s.endCall

end PCA9536

/-- The constructor `PCA9536::PCA9536()`: the communication result starts as success. -/
def PCA9536.new (wire : TwoWire) : PCA9536 :=
  { _comBuffer := COM_SUCCESS, Wire := wire }

/-! ## States used to describe the effect of a transaction -/

/-- The state that a register read leaves behind when its commit and its read request both
succeed: the pointer names the register, one status and one reply of the script are used
up, and the log holds the pointer-set transaction, the request and the byte read. -/
def afterGet (s : PCA9536) (r : reg_ptr_t) : PCA9536 :=
  { _comBuffer := 0
    Wire :=
      { txAddress := DEV_ADDR
        txBuffer := []
        rxBuffer := []
        device := { s.Wire.device with pointer := r.toNat }
        statuses := s.Wire.statuses.tail
        replies := s.Wire.replies.tail
        trace := s.Wire.trace ++
          [BusEvent.transmit DEV_ADDR [r.toNat] 0,
           BusEvent.request DEV_ADDR 1 [s.Wire.device.reg r.toNat],
           BusEvent.read (s.Wire.device.reg r.toNat)] } }

/-- The state that an acknowledged register write leaves behind. -/
def afterSet (s : PCA9536) (r : reg_ptr_t) (v : Nat) : PCA9536 :=
  { _comBuffer := 0
    Wire :=
      { s.Wire with
        txAddress := DEV_ADDR
        txBuffer := []
        device := Device.store { s.Wire.device with pointer := r.toNat } (v % 256)
        statuses := s.Wire.statuses.tail
        trace := s.Wire.trace ++ [BusEvent.transmit DEV_ADDR [r.toNat, v % 256] 0] } }

/-! ## Concrete states -/

/-- A chip with the given OUTPUT, POLARITY and CONFIGURATION registers, INPUT 0x0A and the
pointer at POLARITY. -/
def sampleDevice (output polarity config : Nat) : Device :=
  { input := 0x0A, output := output, polarity := polarity, config := config, pointer := 2 }

/-- A fresh driver on a fault-free bus in front of the given chip, with two stale bytes in
the receive buffer. -/
def sampleDriver (d : Device) : PCA9536 :=
  PCA9536.new
    { txAddress := 0, txBuffer := [], rxBuffer := [7, 7], device := d, statuses := [],
      replies := [], trace := [] }

/-- A driver holding an earlier error code on a bus with scripted faults. -/
def faultyDriver (d : Device) (statuses : List Nat) (replies : List (Option (List Nat))) :
    PCA9536 :=
  { _comBuffer := 2
    Wire :=
      { txAddress := 0, txBuffer := [], rxBuffer := [7, 7], device := d, statuses := statuses,
        replies := replies, trace := [] } }


/-! ## Notions used to compare `setPins` with repeated `setPin` -/

/-- The four sequential calls `setPin(0, r, v0); setPin(1, r, v1); setPin(2, r, v2);
setPin(3, r, v3)` that the spec sets against one call of `setPins`. -/
def setPinsSequential (s : PCA9536) (r : reg_ptr_t) (v0 v1 v2 v3 : Nat) : PCA9536 :=
  (((s.setPin pin_t.IO0 r v0).setPin pin_t.IO1 r v1).setPin pin_t.IO2 r v2).setPin
    pin_t.IO3 r v3

/-- A read request on the bus. -/
def BusEvent.isRequest : BusEvent → Bool
  | .request _ _ _ => true
  | _ => false

/-- A committed transaction that carries a data byte after the pointer byte. -/
def BusEvent.isDataWrite : BusEvent → Bool
  | .transmit _ bytes _ => decide (1 < bytes.length)
  | _ => false

/-- Number of register reads (read requests) in a log. -/
def readCount (log : List BusEvent) : Nat := log.countP BusEvent.isRequest

/-- Number of register writes (transactions with a data byte) in a log. -/
def writeCount (log : List BusEvent) : Nat := log.countP BusEvent.isDataWrite

/-! ## Bit-level facts -/

open PCA9536 TwoWire

theorem bitNot_testBit (bits x i : Nat) :
    (bitNot bits x).testBit i = (decide (i < bits) && !x.testBit i) := by
  unfold bitNot
  have h : x % 2 ^ bits < 2 ^ bits := Nat.mod_lt _ (by positivity)
  have e : 2 ^ bits - 1 - x % 2 ^ bits = 2 ^ bits - (x % 2 ^ bits + 1) := by omega
  rw [e, Nat.testBit_two_pow_sub_succ h, Nat.testBit_mod_two_pow]
  cases decide (i < bits) <;> simp

theorem testBit_bitSet (x p q : Nat) :
    (bitSet x p).testBit q = (decide (q < 8) && (x.testBit q || decide (p = q))) := by
  unfold bitSet ULONG_BITS
  rw [show (256 : Nat) = 2 ^ 8 by norm_num, Nat.testBit_mod_two_pow, Nat.testBit_or,
    Nat.testBit_mod_two_pow, Nat.one_shiftLeft, Nat.testBit_two_pow]
  by_cases h : q < 8
  · have : q < 32 := by omega
    simp [h, this]
  · simp [h]

theorem testBit_bitClear (x p q : Nat) :
    (bitClear x p).testBit q = (decide (q < 8) && (x.testBit q && !decide (p = q))) := by
  unfold bitClear ULONG_BITS
  rw [show (256 : Nat) = 2 ^ 8 by norm_num, Nat.testBit_mod_two_pow, Nat.testBit_and,
    bitNot_testBit, Nat.one_shiftLeft, Nat.testBit_two_pow]
  by_cases h : q < 8
  · have : q < 32 := by omega
    simp [h, this]
  · simp [h]

theorem testBit_bitWrite (x p v q : Nat) :
    (bitWrite x p v).testBit q =
      (decide (q < 8) && (if p = q then decide (v ≠ 0) else x.testBit q)) := by
  unfold bitWrite
  by_cases hv : v = 0 <;> by_cases hpq : p = q <;>
    simp [hv, hpq, testBit_bitSet, testBit_bitClear]

theorem bitRead_eq (x p : Nat) : bitRead x p = (x.testBit p).toNat := by
  unfold bitRead
  rw [Nat.toNat_testBit, Nat.and_one_is_mod, Nat.shiftRight_eq_div_pow]

theorem byteOfInt_natCast (b : Nat) : byteOfInt (b : Int) = b % 256 := by
  unfold byteOfInt
  omega

theorem headD_of_healthy_statuses (w : TwoWire) (h : w.healthy) : w.statuses.headD 0 = 0 := by
  rcases hs : w.statuses with _ | ⟨a, l⟩
  · rfl
  · exact h.1 a (by simp [hs])

theorem headD_of_healthy_replies (w : TwoWire) (h : w.healthy) : w.replies.headD none = none := by
  rcases hs : w.replies with _ | ⟨a, l⟩
  · rfl
  · exact h.2 a (by simp [hs])

theorem getReg_healthy (s : PCA9536) (r : reg_ptr_t) (h : s.Wire.healthy) :
    s.getReg r = (s.Wire.device.reg r.toNat % 256, afterGet s r) := by
  obtain ⟨cb, ⟨ta, tb, rb, dev, sts, reps, tr⟩⟩ := s
  have h1 : sts.headD 0 = 0 := headD_of_healthy_statuses _ h
  have h2 : reps.headD none = none := headD_of_healthy_replies _ h
  cases r <;>
  simp only [getReg, initCall, endCall, TwoWire.beginTransmission, TwoWire.write,
    TwoWire.endTransmission, TwoWire.requestFrom, TwoWire.available, TwoWire.read, h1, h2,
    COM_SUCCESS, NUM_BYTES, reg_ptr_t.toNat, Device.receive, Device.reg, afterGet,
    Device.store, List.replicate, List.foldl, List.length_singleton, if_true, and_self,
    byteOfInt_natCast] <;>
  simp

theorem setReg_acked (s : PCA9536) (r : reg_ptr_t) (v : Nat) (hr : r ≠ reg_ptr_t.REG_INPUT)
    (h : s.Wire.statuses.headD 0 = 0) : s.setReg r v = afterSet s r v := by
  obtain ⟨cb, ⟨ta, tb, rb, dev, sts, reps, tr⟩⟩ := s
  replace h : sts.headD 0 = 0 := h
  cases r <;>
  first
  | exact absurd rfl hr
  | (simp only [setReg, initCall, endCall, TwoWire.beginTransmission, TwoWire.write,
      TwoWire.endTransmission, h, reg_ptr_t.toNat, Device.receive, afterSet]
     simp)

theorem healthy_tail (w : TwoWire) (h : w.healthy) (w2 : TwoWire)
    (h1 : w2.statuses = w.statuses.tail ∨ w2.statuses = w.statuses)
    (h2 : w2.replies = w.replies.tail ∨ w2.replies = w.replies) : w2.healthy := by
  refine ⟨fun st hst => h.1 st ?_, fun r hr => h.2 r ?_⟩
  · rcases h1 with e | e
    · rw [e] at hst; exact List.mem_of_mem_tail hst
    · rw [e] at hst; exact hst
  · rcases h2 with e | e
    · rw [e] at hr; exact List.mem_of_mem_tail hr
    · rw [e] at hr; exact hr

theorem afterGet_healthy (s : PCA9536) (r : reg_ptr_t) (h : s.Wire.healthy) :
    (afterGet s r).Wire.healthy :=
  healthy_tail _ h _ (Or.inl rfl) (Or.inl rfl)

theorem afterSet_healthy (s : PCA9536) (r : reg_ptr_t) (v : Nat) (h : s.Wire.healthy) :
    (afterSet s r v).Wire.healthy :=
  healthy_tail _ h _ (Or.inl rfl) (Or.inr rfl)

theorem setReg_healthy (s : PCA9536) (r : reg_ptr_t) (v : Nat) (hr : r ≠ reg_ptr_t.REG_INPUT)
    (h : s.Wire.healthy) : s.setReg r v = afterSet s r v :=
  setReg_acked s r v hr (headD_of_healthy_statuses _ h)

theorem reg_lt (d : Device) (ptr : Nat) : d.reg ptr < 16 := by
  unfold Device.reg
  exact Nat.mod_lt _ (by norm_num)

theorem reg_mod256 (d : Device) (ptr : Nat) : d.reg ptr % 256 = d.reg ptr :=
  Nat.mod_eq_of_lt (Nat.lt_trans (reg_lt d ptr) (by norm_num))

theorem afterSet_reg (s : PCA9536) (r : reg_ptr_t) (v : Nat) (hr : r ≠ reg_ptr_t.REG_INPUT) :
    (afterSet s r v).Wire.device.reg r.toNat = v % 16 := by
  cases r <;>
  first
  | exact absurd rfl hr
  | (simp only [afterSet, Device.store, Device.reg, reg_ptr_t.toNat]
     omega)

theorem afterGet_reg (s : PCA9536) (r r2 : reg_ptr_t) :
    (afterGet s r).Wire.device.reg r2.toNat = s.Wire.device.reg r2.toNat := by
  cases r2 <;> rfl

theorem setPin_healthy (s : PCA9536) (p : pin_t) (r : reg_ptr_t) (v : Nat)
    (hr : r ≠ reg_ptr_t.REG_INPUT) (h : s.Wire.healthy) :
    s.setPin p r v =
      afterSet (afterGet s r) r (bitWrite (s.Wire.device.reg r.toNat % 256) p.toNat v) := by
  unfold setPin
  rw [getReg_healthy s r h]
  exact setReg_healthy _ _ _ hr (afterGet_healthy s r h)

theorem testBit_mod256 (x q : Nat) :
    (x % 256).testBit q = (decide (q < 8) && x.testBit q) := by
  rw [show (256 : Nat) = 2 ^ 8 by norm_num, Nat.testBit_mod_two_pow]

theorem testBit_mod16 (x q : Nat) :
    (x % 16).testBit q = (decide (q < 4) && x.testBit q) := by
  rw [show (16 : Nat) = 2 ^ 4 by norm_num, Nat.testBit_mod_two_pow]

theorem testBit_nibble_high (x i : Nat) (hx : x < 16) (hi : ¬ i < 4) :
    x.testBit i = false := by
  apply Nat.testBit_lt_two_pow
  calc x < 2 ^ 4 := by norm_num; exact hx
    _ ≤ 2 ^ i := Nat.pow_le_pow_right (by norm_num) (by omega)

theorem pin_lt (p : pin_t) : p.toNat < 4 := by cases p <;> decide

/-- C1: on a bus where every transaction succeeds, for every pin p, every writable register
r (OUTPUT, POLARITY, CONFIGURATION) and every bit value v, after `setPin(p, r, v)` the call
`getPin(p, r)` returns v, and every bit of `getReg(r)` other than bit p has the value it
had before the call. -/
theorem setPin_getPin (s : PCA9536) (p : pin_t) (r : reg_ptr_t) (v : Nat)
    (hr : r ≠ reg_ptr_t.REG_INPUT) (hv : v = 0 ∨ v = 1) (h : s.Wire.healthy) :
    ((s.setPin p r v).getPin p r).1 = v ∧
      ∀ q : Nat, q ≠ p.toNat →
        ((s.setPin p r v).getReg r).1.testBit q = (s.getReg r).1.testBit q := by
  have hp := pin_lt p
  rw [setPin_healthy s p r v hr h]
  have hh := afterSet_healthy _ r (bitWrite (s.Wire.device.reg r.toNat % 256) p.toNat v)
    (afterGet_healthy s r h)
  unfold getPin
  rw [getReg_healthy _ r hh, getReg_healthy s r h, afterSet_reg _ _ _ hr]
  simp only [bitRead_eq, testBit_mod256, testBit_mod16, testBit_bitWrite]
  constructor
  · have : p.toNat < 8 := by omega
    rcases hv with rfl | rfl <;> simp [this, hp]
  · intro q hq
    by_cases hq4 : q < 4
    · have : q < 8 := by omega
      simp [Ne.symm hq, hq4, this]
    · simp [hq4, testBit_nibble_high _ q (reg_lt s.Wire.device r.toNat) hq4]

/-- Instance of `setPin_getPin`: pin 2 of OUTPUT set to 1 on a chip whose OUTPUT register
holds 0x09; bit 3 is still set afterwards. -/
theorem setPin_getPin_witness :
    (sampleDriver (sampleDevice 0x09 0 0)).Wire.healthy ∧
      (((sampleDriver (sampleDevice 0x09 0 0)).setPin pin_t.IO2 reg_ptr_t.REG_OUTPUT 1).getPin
        pin_t.IO2 reg_ptr_t.REG_OUTPUT).1 = 1 ∧
      (((sampleDriver (sampleDevice 0x09 0 0)).setPin pin_t.IO2 reg_ptr_t.REG_OUTPUT 1).getReg
        reg_ptr_t.REG_OUTPUT).1.testBit 3 = true :=
  have w := setPin_getPin (sampleDriver (sampleDevice 0x09 0 0)) pin_t.IO2
    reg_ptr_t.REG_OUTPUT 1 (by decide) (Or.inr rfl) (by decide)
  ⟨by decide, w.1, (w.2 3 (by decide)).trans (by decide)⟩

theorem testBit_byte_high (x i : Nat) (hx : x < 256) (hi : ¬ i < 8) : x.testBit i = false := by
  apply Nat.testBit_lt_two_pow
  calc x < 2 ^ 8 := by norm_num; exact hx
    _ ≤ 2 ^ i := Nat.pow_le_pow_right (by norm_num) (by omega)

theorem byte_sub_eq_bitNot (mask : Nat) (hm : mask < 256) : 255 - mask = bitNot 8 mask := by
  unfold bitNot
  rw [Nat.mod_eq_of_lt (by norm_num; exact hm)]
  norm_num

theorem polarity_byte (vals mask new : Nat) (hm : mask < 256) :
    (((vals % 256 &&& bitNot INT_BITS (mask % 256)) ||| (new &&& mask % 256)) % 256) % 256 =
      (vals &&& (255 - mask)) ||| (new &&& mask) := by
  rw [byte_sub_eq_bitNot mask hm]
  apply Nat.eq_of_testBit_eq
  intro i
  simp only [testBit_mod256, Nat.testBit_or, Nat.testBit_and, bitNot_testBit, INT_BITS]
  by_cases hi : i < 8
  · have : i < 16 := by omega
    simp [hi, this]
  · simp [hi, testBit_byte_high mask i hm hi]

theorem valid_reg (d : Device) (hd : d.valid) :
    d.reg 0 = d.input ∧ d.reg 1 = d.output ∧ d.reg 2 = d.polarity ∧ d.reg 3 = d.config := by
  obtain ⟨h0, h1, h2, h3⟩ := hd
  exact ⟨Nat.mod_eq_of_lt h0, Nat.mod_eq_of_lt h1, Nat.mod_eq_of_lt h2, Nat.mod_eq_of_lt h3⟩

theorem setPolarityAll_healthy (s : PCA9536) (newPolarity : polarity_t) (h : s.Wire.healthy) :
    s.setPolarityAll newPolarity =
      afterSet (afterGet (afterGet s reg_ptr_t.REG_POLARITY) reg_ptr_t.REG_CONFIG)
        reg_ptr_t.REG_POLARITY
        (((s.Wire.device.reg 2 % 256 &&& bitNot INT_BITS (s.Wire.device.reg 3 % 256)) |||
          ((if newPolarity.toNat ≠ 0 then ALL_INVERTED else ALL_NON_INVERTED) &&&
            s.Wire.device.reg 3 % 256)) % 256) := by
  unfold setPolarityAll
  have h1 := afterGet_healthy s reg_ptr_t.REG_POLARITY h
  have h2 := afterGet_healthy _ reg_ptr_t.REG_CONFIG h1
  rw [getReg_healthy s _ h]
  simp only []
  rw [getReg_healthy _ _ h1]
  exact setReg_healthy _ _ _ (by decide) h2

theorem polarity_lt (vals mask new : Nat) (hv : vals < 16) (hm : mask < 16) :
    ((vals &&& (255 - mask)) ||| (new &&& mask)) < 16 := by
  have h1 : vals &&& (255 - mask) < 2 ^ 4 :=
    Nat.lt_of_le_of_lt Nat.and_le_left (by norm_num; exact hv)
  have h2 : new &&& mask < 2 ^ 4 :=
    Nat.lt_of_le_of_lt Nat.and_le_right (by norm_num; exact hm)
  have := Nat.or_lt_two_pow h1 h2
  norm_num at this
  exact this

theorem afterSet_polarity (s : PCA9536) (v : Nat) :
    (afterSet s reg_ptr_t.REG_POLARITY v).Wire.device.polarity = v % 256 % 16 := rfl

/-- C2: on a bus where every transaction succeeds, the broadcast `setPolarity` sends to the
POLARITY register the byte `(polarity AND NOT config) OR (broadcast AND config)`, computed
from the POLARITY and CONFIGURATION registers as the chip presents them, where broadcast
is `ALL_INVERTED` or `ALL_NON_INVERTED` (0x00); the chip's POLARITY register then holds
that byte, so the bit of every pin configured as output is unchanged and the bit of every
pin configured as input equals the requested polarity. When bits 4 to 7 of the registers
are 0 the byte is the same formula of the stored bytes. -/
theorem setPolarityAll_masks_by_config (s : PCA9536) (newPolarity : polarity_t)
    (h : s.Wire.healthy) :
    (s.setPolarityAll newPolarity).Wire.trace.getLast? =
        some (BusEvent.transmit DEV_ADDR
          [reg_ptr_t.REG_POLARITY.toNat,
            (s.Wire.device.reg reg_ptr_t.REG_POLARITY.toNat &&&
                (255 - s.Wire.device.reg reg_ptr_t.REG_CONFIG.toNat)) |||
              ((if newPolarity = polarity_t.IO_INVERTED then ALL_INVERTED else 0x00) &&&
                s.Wire.device.reg reg_ptr_t.REG_CONFIG.toNat)] 0) ∧
      (s.setPolarityAll newPolarity).Wire.device.polarity =
        ((s.Wire.device.reg reg_ptr_t.REG_POLARITY.toNat &&&
            (255 - s.Wire.device.reg reg_ptr_t.REG_CONFIG.toNat)) |||
          ((if newPolarity = polarity_t.IO_INVERTED then ALL_INVERTED else 0x00) &&&
            s.Wire.device.reg reg_ptr_t.REG_CONFIG.toNat)) ∧
      (∀ p : pin_t, bitRead s.Wire.device.config p.toNat = 0 →
        bitRead (s.setPolarityAll newPolarity).Wire.device.polarity p.toNat =
          bitRead s.Wire.device.polarity p.toNat) ∧
      (∀ p : pin_t, bitRead s.Wire.device.config p.toNat = 1 →
        bitRead (s.setPolarityAll newPolarity).Wire.device.polarity p.toNat =
          newPolarity.toNat) ∧
      (s.Wire.device.valid →
        (s.setPolarityAll newPolarity).Wire.trace.getLast? =
            some (BusEvent.transmit DEV_ADDR
              [reg_ptr_t.REG_POLARITY.toNat,
                (s.Wire.device.polarity &&& (255 - s.Wire.device.config)) |||
                  ((if newPolarity = polarity_t.IO_INVERTED then ALL_INVERTED else 0x00) &&&
                    s.Wire.device.config)] 0) ∧
          (s.setPolarityAll newPolarity).Wire.device.polarity =
            ((s.Wire.device.polarity &&& (255 - s.Wire.device.config)) |||
              ((if newPolarity = polarity_t.IO_INVERTED then ALL_INVERTED else 0x00) &&&
                s.Wire.device.config))) := by
  have hpl := reg_lt s.Wire.device reg_ptr_t.REG_POLARITY.toNat
  have hc16 := reg_lt s.Wire.device reg_ptr_t.REG_CONFIG.toNat
  have hc : s.Wire.device.reg reg_ptr_t.REG_CONFIG.toNat < 256 := by omega
  have hb : (if newPolarity.toNat ≠ 0 then ALL_INVERTED else ALL_NON_INVERTED) =
      (if newPolarity = polarity_t.IO_INVERTED then ALL_INVERTED else 0x00) := by
    cases newPolarity <;> rfl
  have key : (s.setPolarityAll newPolarity).Wire.device.polarity =
      ((s.Wire.device.reg reg_ptr_t.REG_POLARITY.toNat &&&
          (255 - s.Wire.device.reg reg_ptr_t.REG_CONFIG.toNat)) |||
        ((if newPolarity = polarity_t.IO_INVERTED then ALL_INVERTED else 0x00) &&&
          s.Wire.device.reg reg_ptr_t.REG_CONFIG.toNat)) := by
    rw [setPolarityAll_healthy s newPolarity h, hb, afterSet_polarity]
    show (((s.Wire.device.reg reg_ptr_t.REG_POLARITY.toNat % 256 &&&
      bitNot INT_BITS (s.Wire.device.reg reg_ptr_t.REG_CONFIG.toNat % 256)) |||
      ((if newPolarity = polarity_t.IO_INVERTED then ALL_INVERTED else 0x00) &&&
        s.Wire.device.reg reg_ptr_t.REG_CONFIG.toNat % 256)) % 256) % 256 % 16 = _
    rw [polarity_byte _ _ _ hc]
    exact Nat.mod_eq_of_lt (polarity_lt _ _ _ hpl hc16)
  have tr : (s.setPolarityAll newPolarity).Wire.trace.getLast? =
      some (BusEvent.transmit DEV_ADDR
        [reg_ptr_t.REG_POLARITY.toNat,
          (s.Wire.device.reg reg_ptr_t.REG_POLARITY.toNat &&&
              (255 - s.Wire.device.reg reg_ptr_t.REG_CONFIG.toNat)) |||
            ((if newPolarity = polarity_t.IO_INVERTED then ALL_INVERTED else 0x00) &&&
              s.Wire.device.reg reg_ptr_t.REG_CONFIG.toNat)] 0) := by
    rw [setPolarityAll_healthy s newPolarity h, hb]
    simp only [afterSet, List.getLast?_concat]
    show some (BusEvent.transmit DEV_ADDR [reg_ptr_t.REG_POLARITY.toNat,
      (((s.Wire.device.reg reg_ptr_t.REG_POLARITY.toNat % 256 &&&
        bitNot INT_BITS (s.Wire.device.reg reg_ptr_t.REG_CONFIG.toNat % 256)) |||
        ((if newPolarity = polarity_t.IO_INVERTED then ALL_INVERTED else 0x00) &&&
          s.Wire.device.reg reg_ptr_t.REG_CONFIG.toNat % 256)) % 256) % 256] 0) = _
    rw [polarity_byte _ _ _ hc]
  have cfgbit : ∀ p : pin_t, (s.Wire.device.reg reg_ptr_t.REG_CONFIG.toNat).testBit p.toNat =
      s.Wire.device.config.testBit p.toNat := by
    intro p
    show (s.Wire.device.config % 16).testBit p.toNat = _
    rw [testBit_mod16]
    simp [pin_lt p]
  have polbit : ∀ p : pin_t,
      (s.Wire.device.reg reg_ptr_t.REG_POLARITY.toNat).testBit p.toNat =
        s.Wire.device.polarity.testBit p.toNat := by
    intro p
    show (s.Wire.device.polarity % 16).testBit p.toNat = _
    rw [testBit_mod16]
    simp [pin_lt p]
  refine ⟨tr, key, ?_, ?_, ?_⟩
  · intro p hp0
    rw [key]
    rw [bitRead_eq] at hp0 ⊢
    rw [bitRead_eq]
    have hlt : p.toNat < 8 := by have := pin_lt p; omega
    have hcb : s.Wire.device.config.testBit p.toNat = false := by
      cases hb2 : s.Wire.device.config.testBit p.toNat
      · rfl
      · rw [hb2] at hp0; simp at hp0
    rw [byte_sub_eq_bitNot _ hc]
    simp [Nat.testBit_or, Nat.testBit_and, bitNot_testBit, cfgbit, polbit, hcb, hlt]
  · intro p hp1
    rw [key]
    rw [bitRead_eq] at hp1 ⊢
    have hlt := pin_lt p
    have hcb : s.Wire.device.config.testBit p.toNat = true := by
      cases hb2 : s.Wire.device.config.testBit p.toNat
      · rw [hb2] at hp1; simp at hp1
      · rfl
    have hinv : (ALL_INVERTED).testBit p.toNat = true := by
      cases p <;> decide
    rw [byte_sub_eq_bitNot _ hc]
    cases newPolarity <;>
      simp [Nat.testBit_or, Nat.testBit_and, bitNot_testBit, cfgbit, polbit, hcb, hinv,
        polarity_t.toNat]
  · intro hd
    obtain ⟨-, -, hr2, hr3⟩ := valid_reg _ hd
    have hr2' : s.Wire.device.reg reg_ptr_t.REG_POLARITY.toNat = s.Wire.device.polarity := hr2
    have hr3' : s.Wire.device.reg reg_ptr_t.REG_CONFIG.toNat = s.Wire.device.config := hr3
    rw [tr, key, hr2', hr3']
    exact ⟨rfl, rfl⟩

/-- Instance of `setPolarityAll_masks_by_config`: CONFIGURATION 0b0101, POLARITY 0b0011,
request INVERTED. -/
theorem setPolarityAll_masks_by_config_witness :
    (sampleDriver (sampleDevice 0 0x03 0x05)).Wire.healthy ∧
      (sampleDriver (sampleDevice 0 0x03 0x05)).Wire.device.valid ∧
      ((sampleDriver (sampleDevice 0 0x03 0x05)).setPolarityAll
        polarity_t.IO_INVERTED).Wire.device.polarity = 0x07 :=
  ⟨by decide, by decide,
    ((setPolarityAll_masks_by_config (sampleDriver (sampleDevice 0 0x03 0x05))
      polarity_t.IO_INVERTED (by decide)).2.2.2.2 (by decide)).2.trans (by decide)⟩

theorem setModeAll_acked (s : PCA9536) (newMode : mode_t) (h : s.Wire.statuses.headD 0 = 0) :
    s.setModeAll newMode =
      afterSet s reg_ptr_t.REG_CONFIG (if newMode.toNat ≠ 0 then ALL_INPUT else ALL_OUTPUT) :=
  setReg_acked s _ _ (by decide) h

theorem setStateAll_acked (s : PCA9536) (newState : state_t) (h : s.Wire.statuses.headD 0 = 0) :
    s.setStateAll newState =
      afterSet s reg_ptr_t.REG_OUTPUT (if newState.toNat ≠ 0 then ALL_HIGH else ALL_LOW) :=
  setReg_acked s _ _ (by decide) h

/-- The state a bare pointer-set transaction leaves behind when it is acknowledged. -/
theorem pointerSet_acked (s : PCA9536) (r : reg_ptr_t) (h : s.Wire.statuses.headD 0 = 0) :
    (s.initCall r).endCall =
      { _comBuffer := 0
        Wire :=
          { s.Wire with
            txAddress := DEV_ADDR
            txBuffer := []
            device := { s.Wire.device with pointer := r.toNat }
            statuses := s.Wire.statuses.tail
            trace := s.Wire.trace ++ [BusEvent.transmit DEV_ADDR [r.toNat] 0] } } := by
  obtain ⟨cb, ⟨ta, tb, rb, dev, sts, reps, tr⟩⟩ := s
  replace h : sts.headD 0 = 0 := h
  cases r <;>
  · simp only [initCall, endCall, TwoWire.beginTransmission, TwoWire.write,
      TwoWire.endTransmission, h, reg_ptr_t.toNat, Device.receive]
    simp

set_option maxRecDepth 100000 in
theorem reset_polarity_byte : ∀ x < 16,
    ((x % 256 &&& bitNot INT_BITS (15 % 256)) ||| (0 &&& 15 % 256)) % 256 = 0 := by
  decide

theorem reset_healthy (s : PCA9536) (h : s.Wire.healthy) :
    s.reset =
      { _comBuffer := 0
        Wire :=
          { txAddress := DEV_ADDR
            txBuffer := []
            rxBuffer := []
            device :=
              { input := s.Wire.device.input
                output := 0x0F
                polarity := 0x00
                config := 0x0F
                pointer := 0 }
            statuses := s.Wire.statuses.tail.tail.tail.tail.tail.tail
            replies := s.Wire.replies.tail.tail
            trace := s.Wire.trace ++
              [BusEvent.transmit DEV_ADDR [3, 0x0F] 0,
               BusEvent.transmit DEV_ADDR [1, 0x0F] 0,
               BusEvent.transmit DEV_ADDR [2] 0,
               BusEvent.request DEV_ADDR 1 [s.Wire.device.polarity % 16],
               BusEvent.read (s.Wire.device.polarity % 16),
               BusEvent.transmit DEV_ADDR [3] 0,
               BusEvent.request DEV_ADDR 1 [0x0F],
               BusEvent.read 0x0F,
               BusEvent.transmit DEV_ADDR [2, 0x00] 0,
               BusEvent.transmit DEV_ADDR [0] 0] } } := by
  have h1 := afterSet_healthy s reg_ptr_t.REG_CONFIG ALL_INPUT h
  have h2 := afterSet_healthy _ reg_ptr_t.REG_OUTPUT ALL_HIGH h1
  have e1 : s.setModeAll mode_t.IO_INPUT = afterSet s reg_ptr_t.REG_CONFIG ALL_INPUT :=
    setModeAll_acked s _ (headD_of_healthy_statuses _ h)
  have e2 : (afterSet s reg_ptr_t.REG_CONFIG ALL_INPUT).setStateAll state_t.IO_HIGH =
      afterSet _ reg_ptr_t.REG_OUTPUT ALL_HIGH :=
    setStateAll_acked _ _ (headD_of_healthy_statuses _ h1)
  have e3 := setPolarityAll_healthy _ polarity_t.IO_NON_INVERTED h2
  have h3 : (setPolarityAll (afterSet (afterSet s reg_ptr_t.REG_CONFIG ALL_INPUT)
      reg_ptr_t.REG_OUTPUT ALL_HIGH) polarity_t.IO_NON_INVERTED).Wire.healthy := by
    rw [e3]
    exact afterSet_healthy _ _ _ (afterGet_healthy _ _ (afterGet_healthy _ _ h2))
  unfold reset
  simp only []
  rw [e1, e2, pointerSet_acked _ _ (headD_of_healthy_statuses _ h3), e3]
  have hb := reset_polarity_byte (s.Wire.device.polarity % 16) (Nat.mod_lt _ (by norm_num))
  simp only [afterSet, afterGet, Device.store, Device.reg, reg_ptr_t.toNat, ALL_INPUT, ALL_HIGH,
    ALL_NON_INVERTED, polarity_t.toNat, List.append_assoc, List.cons_append, List.nil_append]
  simp at hb ⊢
  simp [hb]

/-- C3: on a bus where every transaction succeeds, whatever the OUTPUT, POLARITY and
CONFIGURATION registers held before, after `reset` the chip has CONFIGURATION = 0x0F,
OUTPUT = 0x0F and POLARITY = 0x00, its register pointer is INPUT (0x00), and the final
transaction carries the pointer byte alone, after which nothing is requested or read. -/
theorem reset_registers (s : PCA9536) (h : s.Wire.healthy) :
    s.reset.Wire.device.config = 0x0F ∧
      s.reset.Wire.device.output = 0x0F ∧
      s.reset.Wire.device.polarity = 0x00 ∧
      s.reset.Wire.device.pointer = reg_ptr_t.REG_INPUT.toNat ∧
      s.reset.Wire.trace.getLast? =
        some (BusEvent.transmit DEV_ADDR [reg_ptr_t.REG_INPUT.toNat] 0) := by
  rw [reset_healthy s h]
  refine ⟨rfl, rfl, rfl, rfl, ?_⟩
  simp [reg_ptr_t.toNat]

/-- Instance of `reset_registers`: a chip with OUTPUT 0x05, POLARITY 0x0A and
CONFIGURATION 0x03. -/
theorem reset_registers_witness :
    (sampleDriver (sampleDevice 0x05 0x0A 0x03)).Wire.healthy ∧
      (sampleDriver (sampleDevice 0x05 0x0A 0x03)).reset.Wire.device.config = 0x0F ∧
      (sampleDriver (sampleDevice 0x05 0x0A 0x03)).reset.Wire.device.output = 0x0F ∧
      (sampleDriver (sampleDevice 0x05 0x0A 0x03)).reset.Wire.device.polarity = 0x00 ∧
      (sampleDriver (sampleDevice 0x05 0x0A 0x03)).reset.Wire.device.pointer = 0 :=
  have w := reset_registers (sampleDriver (sampleDevice 0x05 0x0A 0x03)) (by decide)
  ⟨by decide, w.1, w.2.1, w.2.2.1, w.2.2.2.1⟩

set_option maxRecDepth 100000 in
theorem pins_nibble : ∀ x < 16, ∀ v0 < 2, ∀ v1 < 2, ∀ v2 < 2, ∀ v3 < 2,
    bitWrite (bitWrite (bitWrite (bitWrite x 0 v0) 1 v1) 2 v2) 3 v3 =
      v0 + 2 * v1 + 4 * v2 + 8 * v3 := by
  decide

theorem setPins_healthy (s : PCA9536) (r : reg_ptr_t) (v0 v1 v2 v3 : Nat)
    (hr : r ≠ reg_ptr_t.REG_INPUT) (h : s.Wire.healthy) :
    s.setPins r v0 v1 v2 v3 =
      afterSet (afterGet s r) r
        (bitWrite (bitWrite (bitWrite (bitWrite (s.Wire.device.reg r.toNat % 256) 0 v0) 1 v1)
          2 v2) 3 v3) := by
  unfold setPins
  rw [getReg_healthy s r h]
  exact setReg_healthy _ _ _ hr (afterGet_healthy s r h)

/-- C4: on a bus where every transaction succeeds, for all bit values v0..v3 and whatever
the OUTPUT register held before, after `setPins(OUTPUT, v0, v1, v2, v3)` the call
`getReg(OUTPUT)` returns v0 + 2*v1 + 4*v2 + 8*v3; in particular the pattern 1,0,1,0 reads
back as 0b0101. -/
theorem setPins_output_value (s : PCA9536) (v0 v1 v2 v3 : Nat)
    (h0 : v0 < 2) (h1 : v1 < 2) (h2 : v2 < 2) (h3 : v3 < 2) (h : s.Wire.healthy) :
    ((s.setPins reg_ptr_t.REG_OUTPUT v0 v1 v2 v3).getReg reg_ptr_t.REG_OUTPUT).1 =
        v0 + 2 * v1 + 4 * v2 + 8 * v3 ∧
      ((s.setPins reg_ptr_t.REG_OUTPUT 1 0 1 0).getReg reg_ptr_t.REG_OUTPUT).1 = 0b0101 := by
  have key : ∀ w0 w1 w2 w3 : Nat, w0 < 2 → w1 < 2 → w2 < 2 → w3 < 2 →
      ((s.setPins reg_ptr_t.REG_OUTPUT w0 w1 w2 w3).getReg reg_ptr_t.REG_OUTPUT).1 =
        w0 + 2 * w1 + 4 * w2 + 8 * w3 := by
    intro w0 w1 w2 w3 k0 k1 k2 k3
    rw [setPins_healthy s _ w0 w1 w2 w3 (by decide) h,
      getReg_healthy _ _ (afterSet_healthy _ _ _ (afterGet_healthy s _ h)),
      afterSet_reg _ _ _ (by decide), reg_mod256,
      pins_nibble _ (reg_lt _ _) w0 k0 w1 k1 w2 k2 w3 k3]
    omega
  exact ⟨key v0 v1 v2 v3 h0 h1 h2 h3, key 1 0 1 0 (by decide) (by decide) (by decide)
    (by decide)⟩

/-- Instance of `setPins_output_value`: the pattern 0,1,1,0 on a chip whose OUTPUT holds
0x09 reads back as 0b0110. -/
theorem setPins_output_value_witness :
    (sampleDriver (sampleDevice 0x09 0 0)).Wire.healthy ∧
      (((sampleDriver (sampleDevice 0x09 0 0)).setPins reg_ptr_t.REG_OUTPUT 0 1 1 0).getReg
        reg_ptr_t.REG_OUTPUT).1 = 0b0110 :=
  ⟨by decide,
    (setPins_output_value (sampleDriver (sampleDevice 0x09 0 0)) 0 1 1 0 (by decide)
      (by decide) (by decide) (by decide) (by decide)).1⟩

theorem drainLoop_spec (w : TwoWire) :
    w.drainLoop w.available =
      { w with rxBuffer := [], trace := w.trace ++ w.rxBuffer.map BusEvent.read } := by
  obtain ⟨ta, tb, rb, dev, sts, reps, tr⟩ := w
  induction rb generalizing tr with
  | nil => simp [TwoWire.available, TwoWire.drainLoop]
  | cons b rest ih =>
    have step := ih (tr ++ [BusEvent.read b])
    simp only [TwoWire.available, List.length_cons, TwoWire.drainLoop, TwoWire.read] at step ⊢
    rw [if_pos (by omega), step]
    simp

/-- C5: when the pointer-set transaction of `getReg` commits with success and the number of
bytes available after the one-byte request is not 1, `getReg` returns 0, every available
byte is read and discarded (the receive buffer ends empty and the log shows one read per
byte, followed by the data-less probe), and the stored communication result is the status
returned by the `ping` that `getReg` performs on the drained state, which is the next
status the bus delivers. -/
theorem getReg_short_read (s : PCA9536) (r : reg_ptr_t)
    (hc : ((s.initCall r).endCall).getComResult = COM_SUCCESS)
    (hs : (((s.initCall r).endCall).Wire.requestFrom DEV_ADDR NUM_BYTES).2.available ≠
      NUM_BYTES) :
    (s.getReg r).1 = 0 ∧
      (s.getReg r).2.Wire.available = 0 ∧
      (s.getReg r).2.Wire.trace =
        (((s.initCall r).endCall).Wire.requestFrom DEV_ADDR NUM_BYTES).2.trace ++
          ((((s.initCall r).endCall).Wire.requestFrom DEV_ADDR NUM_BYTES).2.rxBuffer.map
            BusEvent.read) ++
          [BusEvent.transmit DEV_ADDR [] (s.getReg r).2.getComResult] ∧
      (s.getReg r).2.getComResult =
        (PCA9536.ping
          { (s.initCall r).endCall with
            Wire :=
              (((s.initCall r).endCall).Wire.requestFrom DEV_ADDR NUM_BYTES).2.drainLoop
                (((s.initCall r).endCall).Wire.requestFrom DEV_ADDR NUM_BYTES).2.available }).1 ∧
      (s.getReg r).2.getComResult = s.Wire.statuses.tail.headD 0 := by
  have hc2 : ((s.initCall r).endCall)._comBuffer = COM_SUCCESS := hc
  have e : s.getReg r =
      (0, { (PCA9536.ping
          { (s.initCall r).endCall with
            Wire :=
              (((s.initCall r).endCall).Wire.requestFrom DEV_ADDR NUM_BYTES).2.drainLoop
                (((s.initCall r).endCall).Wire.requestFrom DEV_ADDR NUM_BYTES).2.available }).2 with
        _comBuffer := (PCA9536.ping
          { (s.initCall r).endCall with
            Wire :=
              (((s.initCall r).endCall).Wire.requestFrom DEV_ADDR NUM_BYTES).2.drainLoop
                (((s.initCall r).endCall).Wire.requestFrom DEV_ADDR NUM_BYTES).2.available }).1 }) := by
    unfold getReg
    simp only [hc2, if_true, hs, if_false]
  rw [e, drainLoop_spec]
  refine ⟨rfl, rfl, ?_, rfl, rfl⟩
  simp [ping, TwoWire.beginTransmission, TwoWire.endTransmission, getComResult]

/-- Instance of `getReg_short_read`: the commit succeeds, three bytes arrive instead of
one, and the probe is answered with status 4. -/
theorem getReg_short_read_witness :
    ((faultyDriver (sampleDevice 0 0 0) [0, 4] [some [1, 2, 3]]).getReg
        reg_ptr_t.REG_OUTPUT).1 = 0 ∧
      ((faultyDriver (sampleDevice 0 0 0) [0, 4] [some [1, 2, 3]]).getReg
        reg_ptr_t.REG_OUTPUT).2.Wire.available = 0 ∧
      ((faultyDriver (sampleDevice 0 0 0) [0, 4] [some [1, 2, 3]]).getReg
        reg_ptr_t.REG_OUTPUT).2.getComResult = 4 :=
  have w := getReg_short_read (faultyDriver (sampleDevice 0 0 0) [0, 4] [some [1, 2, 3]])
    reg_ptr_t.REG_OUTPUT (by decide) (by decide)
  ⟨w.1, w.2.1, w.2.2.2.2.trans (by decide)⟩

/-- C6: `setReg` with the INPUT register pointer (0) returns the state it was given: the
log of bus activity, the chip's registers and the stored communication result are all
unchanged, whatever the byte. -/
theorem setReg_input_rejected (s : PCA9536) (x : Nat) :
    s.setReg reg_ptr_t.REG_INPUT x = s ∧
      (s.setReg reg_ptr_t.REG_INPUT x).Wire.trace = s.Wire.trace ∧
      (s.setReg reg_ptr_t.REG_INPUT x).Wire.device = s.Wire.device ∧
      (s.setReg reg_ptr_t.REG_INPUT x).getComResult = s.getComResult := by
  have e : s.setReg reg_ptr_t.REG_INPUT x = s := by
    simp [setReg, reg_ptr_t.toNat]
  rw [e]
  exact ⟨rfl, rfl, rfl, rfl⟩

theorem pointerSet_status (s : PCA9536) (r : reg_ptr_t) :
    (s.initCall r).endCall =
      { _comBuffer := s.Wire.statuses.headD 0
        Wire :=
          { s.Wire with
            txAddress := DEV_ADDR
            txBuffer := []
            device :=
              if s.Wire.statuses.headD 0 = 0 then { s.Wire.device with pointer := r.toNat }
              else s.Wire.device
            statuses := s.Wire.statuses.tail
            trace := s.Wire.trace ++
              [BusEvent.transmit DEV_ADDR [r.toNat] (s.Wire.statuses.headD 0)] } } := by
  obtain ⟨cb, ⟨ta, tb, rb, dev, sts, reps, tr⟩⟩ := s
  cases r <;>
    simp [initCall, endCall, TwoWire.beginTransmission, TwoWire.write,
      TwoWire.endTransmission, reg_ptr_t.toNat, Device.receive]

/-- C7: let `st` be the status with which the pointer-set transaction of `getReg(r)`
commits. If `st` is not 0, `getReg` returns 0, stores `st` as communication result, and
requests and reads nothing: the log grows by that one transaction only and the receive
buffer and the pending replies are untouched. If `st` is 0 and exactly one byte `b` is
available after the request, `getReg` returns that byte and the communication result is 0;
when the chip itself answered the request, the byte is the chip's register `r`. The byte
is returned through a `byte` variable, hence modulo 256. -/
theorem getReg_by_commit_status (s : PCA9536) (r : reg_ptr_t) (st : Nat)
    (hst : ((s.initCall r).endCall).getComResult = st) :
    (st ≠ 0 →
        (s.getReg r).1 = 0 ∧
          (s.getReg r).2.getComResult = st ∧
          (s.getReg r).2.Wire.trace =
            s.Wire.trace ++ [BusEvent.transmit DEV_ADDR [r.toNat] st] ∧
          (s.getReg r).2.Wire.rxBuffer = s.Wire.rxBuffer ∧
          (s.getReg r).2.Wire.replies = s.Wire.replies) ∧
      (st = 0 → ∀ b : Nat,
        (((s.initCall r).endCall).Wire.requestFrom DEV_ADDR NUM_BYTES).2.rxBuffer = [b] →
          (s.getReg r).1 = b % 256 ∧
            (b < 256 → (s.getReg r).1 = b) ∧
            (s.getReg r).2.getComResult = 0 ∧
            (s.Wire.replies.headD none = none → b = s.Wire.device.reg r.toNat)) := by
  have hst2 : ((s.initCall r).endCall)._comBuffer = st := hst
  constructor
  · intro hne
    have e : s.getReg r = (0, (s.initCall r).endCall) := by
      unfold getReg
      simp only [hst2, COM_SUCCESS, hne, if_false]
    rw [e]
    rw [pointerSet_status] at hst2 ⊢
    replace hst2 : s.Wire.statuses.headD 0 = st := hst2
    subst hst2
    exact ⟨rfl, rfl, rfl, rfl, rfl⟩
  · intro h0 b hb
    subst h0
    have e : s.getReg r = (b % 256,
        { (s.initCall r).endCall with
          Wire := ((((s.initCall r).endCall).Wire.requestFrom DEV_ADDR NUM_BYTES).2.read).2 }) := by
      have hb2 := hb
      simp only [NUM_BYTES] at hb2
      unfold getReg
      simp only [hst2, COM_SUCCESS, if_true, TwoWire.available, NUM_BYTES, hb2,
        List.length_singleton, TwoWire.read, byteOfInt_natCast]
    rw [e]
    refine ⟨rfl, fun hlt => Nat.mod_eq_of_lt hlt, hst2, ?_⟩
    intro hrep
    rw [pointerSet_status] at hb hst2
    simp only at hst2
    simp only [TwoWire.requestFrom, hrep, hst2, if_true, NUM_BYTES, List.replicate_one] at hb
    have := List.head_eq_of_cons_eq hb
    rw [← this]
    cases r <;> rfl

/-- Instances of `getReg_by_commit_status`: a commit answered with status 2, and a commit
that succeeds on a chip whose OUTPUT register holds 0x05. -/
theorem getReg_by_commit_status_witness :
    (((faultyDriver (sampleDevice 0x05 0 0) [2] []).getReg reg_ptr_t.REG_OUTPUT).1 = 0 ∧
        ((faultyDriver (sampleDevice 0x05 0 0) [2] []).getReg
          reg_ptr_t.REG_OUTPUT).2.getComResult = 2) ∧
      (((faultyDriver (sampleDevice 0x05 0 0) [0] []).getReg reg_ptr_t.REG_OUTPUT).1 =
          0x05 ∧
        ((faultyDriver (sampleDevice 0x05 0 0) [0] []).getReg
          reg_ptr_t.REG_OUTPUT).2.getComResult = 0) :=
  have w1 := (getReg_by_commit_status (faultyDriver (sampleDevice 0x05 0 0) [2] [])
    reg_ptr_t.REG_OUTPUT 2 (by decide)).1 (by decide)
  have w2 := (getReg_by_commit_status (faultyDriver (sampleDevice 0x05 0 0) [0] [])
    reg_ptr_t.REG_OUTPUT 0 (by decide)).2 rfl 0x05 (by decide)
  ⟨⟨w1.1, w1.2.1⟩, ⟨w2.2.1 (by decide), w2.2.2.1⟩⟩

theorem bitRead_mod256 (x p : Nat) (hp : p < 8) : bitRead (x % 256) p = bitRead x p := by
  rw [bitRead_eq, bitRead_eq, testBit_mod256]
  simp [hp]

theorem bitRead_mod16 (x p : Nat) (hp : p < 4) : bitRead (x % 16) p = bitRead x p := by
  rw [bitRead_eq, bitRead_eq, testBit_mod16]
  simp [hp]

theorem bitRead_reg (d : Device) (r : reg_ptr_t) (p : pin_t) :
    bitRead (d.reg r.toNat % 256) p.toNat =
      bitRead
        (match r with
          | .REG_INPUT => d.input
          | .REG_OUTPUT => d.output
          | .REG_POLARITY => d.polarity
          | .REG_CONFIG => d.config) p.toNat := by
  have hp := pin_lt p
  rw [reg_mod256]
  cases r <;> exact bitRead_mod16 _ _ hp

theorem bitRead_lt_two (x p : Nat) : bitRead x p = 0 ∨ bitRead x p = 1 := by
  rw [bitRead_eq]
  cases x.testBit p <;> simp

/-- C8: on a bus where every transaction succeeds, `getState(p)` returns bit p of the
OUTPUT register when bit p of CONFIGURATION is 0 and bit p of the INPUT register when bit p
of CONFIGURATION is 1. -/
theorem getState_selects_register (s : PCA9536) (p : pin_t) (h : s.Wire.healthy) :
    (bitRead s.Wire.device.config p.toNat = 0 →
        (s.getState p).1 = bitRead s.Wire.device.output p.toNat) ∧
      (bitRead s.Wire.device.config p.toNat = 1 →
        (s.getState p).1 = bitRead s.Wire.device.input p.toNat) := by
  have h1 := afterGet_healthy s reg_ptr_t.REG_CONFIG h
  have em : s.getMode p =
      (bitRead s.Wire.device.config p.toNat, afterGet s reg_ptr_t.REG_CONFIG) := by
    unfold getMode getPin
    rw [getReg_healthy s _ h]
    show (bitRead (s.Wire.device.reg reg_ptr_t.REG_CONFIG.toNat % 256) p.toNat, _) = _
    rw [bitRead_reg]
  constructor
  · intro h0
    unfold getState
    rw [em]
    simp only [h0, ne_eq, not_true_eq_false, if_false]
    unfold getPin
    rw [getReg_healthy _ _ h1]
    show bitRead ((afterGet s reg_ptr_t.REG_CONFIG).Wire.device.reg
      reg_ptr_t.REG_OUTPUT.toNat % 256) p.toNat = _
    rw [bitRead_reg]
    rfl
  · intro h1'
    unfold getState
    rw [em]
    simp only [h1', ne_eq, one_ne_zero, not_false_eq_true, if_true]
    unfold getPin
    rw [getReg_healthy _ _ h1]
    show bitRead ((afterGet s reg_ptr_t.REG_CONFIG).Wire.device.reg
      reg_ptr_t.REG_INPUT.toNat % 256) p.toNat = _
    rw [bitRead_reg]
    rfl

/-- Instance of `getState_selects_register`: INPUT 0x0A, OUTPUT 0x05, CONFIGURATION 0x03;
pin 2 is an output and pin 1 is an input. -/
theorem getState_selects_register_witness :
    ((sampleDriver (sampleDevice 0x05 0 0x03)).getState pin_t.IO2).1 = 1 ∧
      ((sampleDriver (sampleDevice 0x05 0 0x03)).getState pin_t.IO1).1 = 1 :=
  ⟨((getState_selects_register (sampleDriver (sampleDevice 0x05 0 0x03)) pin_t.IO2
      (by decide)).1 (by decide)).trans (by decide),
    ((getState_selects_register (sampleDriver (sampleDevice 0x05 0 0x03)) pin_t.IO1
      (by decide)).2 (by decide)).trans (by decide)⟩

theorem toggleState_healthy (s : PCA9536) (p : pin_t) (h : s.Wire.healthy) :
    s.toggleState p =
      afterSet (afterGet s reg_ptr_t.REG_OUTPUT) reg_ptr_t.REG_OUTPUT
        ((s.Wire.device.reg 1 % 256 ^^^ ((1 <<< p.toNat) % 2 ^ INT_BITS)) % 256) := by
  unfold toggleState
  rw [getReg_healthy s _ h]
  exact setReg_healthy _ _ _ (by decide) (afterGet_healthy s _ h)

set_option maxRecDepth 100000 in
theorem toggle_nibble : ∀ x < 16, ∀ p < 4,
    ((x % 256 ^^^ ((1 <<< p) % 2 ^ INT_BITS)) % 256) % 256 % 16 = x ^^^ (1 <<< p) ∧
      x ^^^ (1 <<< p) < 16 := by
  decide

theorem afterSet_output (s : PCA9536) (v : Nat) :
    (afterSet s reg_ptr_t.REG_OUTPUT v).Wire.device.output = v % 256 % 16 := rfl

theorem reg_output (d : Device) : d.reg reg_ptr_t.REG_OUTPUT.toNat = d.output % 16 := rfl

theorem toggleState_output (s : PCA9536) (p : pin_t) (h : s.Wire.healthy) :
    (s.toggleState p).Wire.device.output =
        s.Wire.device.reg reg_ptr_t.REG_OUTPUT.toNat ^^^ (1 <<< p.toNat) ∧
      (s.toggleState p).Wire.device.reg reg_ptr_t.REG_OUTPUT.toNat =
        s.Wire.device.reg reg_ptr_t.REG_OUTPUT.toNat ^^^ (1 <<< p.toNat) := by
  have hn := toggle_nibble _ (reg_lt s.Wire.device reg_ptr_t.REG_OUTPUT.toNat) _ (pin_lt p)
  have e : (s.toggleState p).Wire.device.output =
      s.Wire.device.reg reg_ptr_t.REG_OUTPUT.toNat ^^^ (1 <<< p.toNat) := by
    rw [toggleState_healthy s p h, afterSet_output]
    exact hn.1
  refine ⟨e, ?_⟩
  rw [reg_output, e]
  exact Nat.mod_eq_of_lt hn.2

theorem toggleState_keeps_healthy (s : PCA9536) (p : pin_t) (h : s.Wire.healthy) :
    (s.toggleState p).Wire.healthy := by
  rw [toggleState_healthy s p h]
  exact afterSet_healthy _ _ _ (afterGet_healthy s _ h)

/-- C9: on a bus where every transaction succeeds, for every pin and whatever the OUTPUT
register holds, `toggleState(p)` called twice in succession leaves the OUTPUT register, as
the chip presents it, equal to its original value; when bits 4 to 7 of the registers are 0
the stored OUTPUT byte itself is the original one. -/
theorem toggleState_twice (s : PCA9536) (p : pin_t) (h : s.Wire.healthy) :
    ((s.toggleState p).toggleState p).Wire.device.reg reg_ptr_t.REG_OUTPUT.toNat =
        s.Wire.device.reg reg_ptr_t.REG_OUTPUT.toNat ∧
      (s.Wire.device.valid →
        ((s.toggleState p).toggleState p).Wire.device.output = s.Wire.device.output) := by
  have h1 := toggleState_keeps_healthy s p h
  obtain ⟨-, r1⟩ := toggleState_output s p h
  obtain ⟨o2, r2⟩ := toggleState_output _ p h1
  constructor
  · rw [r2, r1, Nat.xor_assoc, Nat.xor_self, Nat.xor_zero]
  · intro hd
    rw [o2, r1, Nat.xor_assoc, Nat.xor_self, Nat.xor_zero]
    exact (valid_reg _ hd).2.1

/-- Instance of `toggleState_twice`: pin 3 on a chip whose OUTPUT register holds 0x05. -/
theorem toggleState_twice_witness :
    (sampleDriver (sampleDevice 0x05 0 0)).Wire.healthy ∧
      (sampleDriver (sampleDevice 0x05 0 0)).Wire.device.valid ∧
      (((sampleDriver (sampleDevice 0x05 0 0)).toggleState pin_t.IO3).toggleState
        pin_t.IO3).Wire.device.output = 0x05 :=
  ⟨by decide, by decide,
    (toggleState_twice (sampleDriver (sampleDevice 0x05 0 0)) pin_t.IO3 (by decide)).2
      (by decide)⟩

/-- C10: when the write transaction succeeds, the broadcast `setMode(INPUT)` leaves 0x0F in
CONFIGURATION and the broadcast `setMode(OUTPUT)` leaves 0x00, whatever the register held;
the only bus activity is the one write transaction (nothing is read first); and when the
following read succeeds too, `getReg(CONFIG)` returns 0x0F, respectively 0x00. -/
theorem setModeAll_broadcast (s : PCA9536) (hw : s.Wire.statuses.headD 0 = 0) :
    (s.setModeAll mode_t.IO_INPUT).Wire.device.config = 0x0F ∧
      (s.setModeAll mode_t.IO_OUTPUT).Wire.device.config = 0x00 ∧
      (s.setModeAll mode_t.IO_INPUT).Wire.trace =
        s.Wire.trace ++ [BusEvent.transmit DEV_ADDR [reg_ptr_t.REG_CONFIG.toNat, 0x0F] 0] ∧
      (s.setModeAll mode_t.IO_OUTPUT).Wire.trace =
        s.Wire.trace ++ [BusEvent.transmit DEV_ADDR [reg_ptr_t.REG_CONFIG.toNat, 0x00] 0] ∧
      (s.Wire.healthy →
        ((s.setModeAll mode_t.IO_INPUT).getReg reg_ptr_t.REG_CONFIG).1 = 0x0F ∧
          ((s.setModeAll mode_t.IO_OUTPUT).getReg reg_ptr_t.REG_CONFIG).1 = 0x00) := by
  rw [setModeAll_acked s _ hw, setModeAll_acked s _ hw]
  refine ⟨rfl, rfl, rfl, rfl, fun h => ?_⟩
  rw [getReg_healthy _ _ (afterSet_healthy s _ _ h),
    getReg_healthy _ _ (afterSet_healthy s _ _ h)]
  exact ⟨rfl, rfl⟩

/-- Instance of `setModeAll_broadcast`: a driver holding an earlier error code, a chip with
CONFIGURATION 0x05, and a bus that acknowledges. -/
theorem setModeAll_broadcast_witness :
    ((faultyDriver (sampleDevice 0 0 0x05) [0] []).setModeAll
        mode_t.IO_INPUT).Wire.device.config = 0x0F ∧
      ((faultyDriver (sampleDevice 0 0 0x05) [0] []).setModeAll
        mode_t.IO_OUTPUT).Wire.device.config = 0x00 ∧
      (((faultyDriver (sampleDevice 0 0 0x05) [0] []).setModeAll mode_t.IO_INPUT).getReg
        reg_ptr_t.REG_CONFIG).1 = 0x0F :=
  have w := setModeAll_broadcast (faultyDriver (sampleDevice 0 0 0x05) [0] []) (by decide)
  ⟨w.1, w.2.1, (w.2.2.2.2 (by decide)).1⟩

theorem getReg_commit_failed (s : PCA9536) (r : reg_ptr_t)
    (hc : ((s.initCall r).endCall).getComResult ≠ COM_SUCCESS) :
    s.getReg r = (0, (s.initCall r).endCall) := by
  have hc2 : ¬ ((s.initCall r).endCall)._comBuffer = COM_SUCCESS := hc
  unfold getReg
  simp only [hc2, if_false]

theorem getReg_short (s : PCA9536) (r : reg_ptr_t)
    (hs : (((s.initCall r).endCall).Wire.requestFrom DEV_ADDR NUM_BYTES).2.available ≠
      NUM_BYTES) :
    (s.getReg r).1 = 0 := by
  unfold getReg
  by_cases hc : ((s.initCall r).endCall)._comBuffer = COM_SUCCESS
  · simp only [hc, if_true, hs, if_false]
  · simp only [hc, if_false]

theorem bitRead_zero (p : Nat) : bitRead 0 p = 0 := by
  rw [bitRead_eq, Nat.zero_testBit]
  rfl

/-- C11: in every state, for every pin p and every register r, `getPin(p, r)` returns bit p
of the value `getReg(r)` returns in that state and leaves the same state behind; the value
is 0 or 1, and it is 0 whenever the read fails, by a commit error or by a short read. -/
theorem getPin_is_bit_of_getReg (s : PCA9536) (p : pin_t) (r : reg_ptr_t) :
    (s.getPin p r).1 = bitRead (s.getReg r).1 p.toNat ∧
      (s.getPin p r).1 = ((s.getReg r).1.testBit p.toNat).toNat ∧
      (s.getPin p r).2 = (s.getReg r).2 ∧
      ((s.getPin p r).1 = 0 ∨ (s.getPin p r).1 = 1) ∧
      (((s.initCall r).endCall).getComResult ≠ COM_SUCCESS ∨
          (((s.initCall r).endCall).Wire.requestFrom DEV_ADDR NUM_BYTES).2.available ≠
            NUM_BYTES →
        (s.getPin p r).1 = 0) := by
  refine ⟨rfl, bitRead_eq _ _, rfl, bitRead_lt_two _ _, ?_⟩
  intro hf
  have h0 : (s.getReg r).1 = 0 := by
    rcases hf with hc | hs
    · rw [getReg_commit_failed s r hc]
    · exact getReg_short s r hs
  show bitRead (s.getReg r).1 p.toNat = 0
  rw [h0, bitRead_zero]

/-- Instance of `getPin_is_bit_of_getReg`: the commit is answered with status 2 although
the chip's OUTPUT register holds 0x0F. -/
theorem getPin_is_bit_of_getReg_witness :
    ((faultyDriver (sampleDevice 0x0F 0 0) [2] []).getPin pin_t.IO1
      reg_ptr_t.REG_OUTPUT).1 = 0 :=
  (getPin_is_bit_of_getReg (faultyDriver (sampleDevice 0x0F 0 0) [2] []) pin_t.IO1
    reg_ptr_t.REG_OUTPUT).2.2.2.2 (Or.inl (by decide))

theorem setReg_status (s : PCA9536) (r : reg_ptr_t) (x : Nat)
    (hr : r ≠ reg_ptr_t.REG_INPUT) :
    (s.setReg r x).getComResult = s.Wire.statuses.headD 0 ∧
      (s.setReg r x).Wire.trace =
        s.Wire.trace ++
          [BusEvent.transmit DEV_ADDR [r.toNat, x % 256] (s.Wire.statuses.headD 0)] := by
  obtain ⟨cb, ⟨ta, tb, rb, dev, sts, reps, tr⟩⟩ := s
  cases r <;>
  first
  | exact absurd rfl hr
  | simp [setReg, initCall, endCall, TwoWire.beginTransmission, TwoWire.write,
      TwoWire.endTransmission, reg_ptr_t.toNat, getComResult]

/-- C12: the stored communication result is that of the most recent transaction. After
`setReg(r, x)` on a writable register it is the status the call's own commit returned, and
after a `getReg(r)` that does not hit a short read likewise; in both cases the result is
the same whatever value the communication result held before the call. -/
theorem comResult_is_latest_commit (s : PCA9536) (r : reg_ptr_t) (x c : Nat) :
    (r ≠ reg_ptr_t.REG_INPUT →
        (s.setReg r x).getComResult =
            (((s.initCall r).Wire.write x).endTransmission).1 ∧
          (PCA9536.setReg { s with _comBuffer := c } r x).getComResult =
            (s.setReg r x).getComResult) ∧
      (¬ (((s.initCall r).endCall).getComResult = COM_SUCCESS ∧
            (((s.initCall r).endCall).Wire.requestFrom DEV_ADDR NUM_BYTES).2.available ≠
              NUM_BYTES) →
        (s.getReg r).2.getComResult = ((s.initCall r).Wire.endTransmission).1 ∧
          (PCA9536.getReg { s with _comBuffer := c } r).2.getComResult =
            (s.getReg r).2.getComResult) := by
  constructor
  · intro hr
    rw [(setReg_status s r x hr).1, (setReg_status _ r x hr).1]
    exact ⟨rfl, rfl⟩
  · intro hns
    have e : ∀ t : PCA9536, t.Wire = s.Wire →
        (t.getReg r).2.getComResult = ((s.initCall r).Wire.endTransmission).1 := by
      intro t ht
      have e1 : (t.initCall r).endCall = (s.initCall r).endCall := by
        simp only [initCall, endCall, ht]
      by_cases hc : ((s.initCall r).endCall).getComResult = COM_SUCCESS
      · have hav : (((s.initCall r).endCall).Wire.requestFrom DEV_ADDR NUM_BYTES).2.available =
            NUM_BYTES := by
          by_contra hne
          exact hns ⟨hc, hne⟩
        have hc2 : ((s.initCall r).endCall)._comBuffer = COM_SUCCESS := hc
        unfold getReg
        simp only [e1, hc2, if_true, hav]
        exact hc2.symm
      · have hc3 : ((t.initCall r).endCall).getComResult ≠ COM_SUCCESS := by
          rw [e1]; exact hc
        rw [getReg_commit_failed t r hc3, e1]
        rfl
    rw [e s rfl, e { s with _comBuffer := c } rfl]
    exact ⟨rfl, rfl⟩

/-- Instance of `comResult_is_latest_commit`: a driver holding the earlier error 2 writes
and reads OUTPUT on a bus that acknowledges; the stored result is 0 afterwards. -/
theorem comResult_is_latest_commit_witness :
    ((faultyDriver (sampleDevice 0 0 0) [0] []).setReg reg_ptr_t.REG_OUTPUT
        0x05).getComResult = 0 ∧
      ((faultyDriver (sampleDevice 0 0 0) [0] []).getReg
        reg_ptr_t.REG_OUTPUT).2.getComResult = 0 :=
  have w := comResult_is_latest_commit (faultyDriver (sampleDevice 0 0 0) [0] [])
    reg_ptr_t.REG_OUTPUT 0x05 7
  ⟨(w.1 (by decide)).1.trans (by decide), (w.2 (by decide)).1.trans (by decide)⟩

/-- C13, as the code has it: on a bus where every transaction succeeds, with
CONFIGURATION = 0b0011 and prior POLARITY = 0b1100 the broadcast `setPolarity(INVERTED)`
leaves POLARITY = 0b1111: the bits of the input pins 0 and 1 are set and the bits of the
output pins 2 and 3 are kept. -/
theorem setPolarityAll_inverted_example (s : PCA9536) (h : s.Wire.healthy)
    (hc : s.Wire.device.config = 0b0011) (hp : s.Wire.device.polarity = 0b1100) :
    (s.setPolarityAll polarity_t.IO_INVERTED).Wire.device.polarity = 0b1111 := by
  have r2 : s.Wire.device.reg 2 = 0b1100 := by
    show s.Wire.device.polarity % 16 = 0b1100
    rw [hp]
  have r3 : s.Wire.device.reg 3 = 0b0011 := by
    show s.Wire.device.config % 16 = 0b0011
    rw [hc]
  rw [setPolarityAll_healthy s _ h, r2, r3]
  simp only [afterSet, Device.store, reg_ptr_t.toNat]
  decide

/-- Instance of `setPolarityAll_inverted_example`. -/
theorem setPolarityAll_inverted_example_witness :
    (sampleDriver (sampleDevice 0x05 0b1100 0b0011)).Wire.healthy ∧
      ((sampleDriver (sampleDevice 0x05 0b1100 0b0011)).setPolarityAll
        polarity_t.IO_INVERTED).Wire.device.polarity = 0b1111 :=
  ⟨by decide,
    setPolarityAll_inverted_example (sampleDriver (sampleDevice 0x05 0b1100 0b0011))
      (by decide) rfl rfl⟩

/-- C13 fails as stated: with CONFIGURATION = 0b0011 and prior POLARITY = 0b1100 on a
fault-free bus, the broadcast `setPolarity(INVERTED)` leaves POLARITY = 0b1111, not
0b0011. -/
theorem setPolarityAll_inverted_counterexample :
    (sampleDriver (sampleDevice 0 0b1100 0b0011)).Wire.healthy ∧
      (sampleDriver (sampleDevice 0 0b1100 0b0011)).Wire.device.config = 0b0011 ∧
      (sampleDriver (sampleDevice 0 0b1100 0b0011)).Wire.device.polarity = 0b1100 ∧
      ((sampleDriver (sampleDevice 0 0b1100 0b0011)).setPolarityAll
        polarity_t.IO_INVERTED).Wire.device.polarity = 0b1111 ∧
      ((sampleDriver (sampleDevice 0 0b1100 0b0011)).setPolarityAll
        polarity_t.IO_INVERTED).Wire.device.polarity ≠ 0b0011 := by
  decide

theorem getState_healthy (s : PCA9536) (p : pin_t) (h : s.Wire.healthy) :
    (s.getState p).1 =
      if bitRead s.Wire.device.config p.toNat ≠ 0 then bitRead s.Wire.device.input p.toNat
      else bitRead s.Wire.device.output p.toNat := by
  have h1 := afterGet_healthy s reg_ptr_t.REG_CONFIG h
  have ec : bitRead (s.Wire.device.reg reg_ptr_t.REG_CONFIG.toNat % 256) p.toNat =
      bitRead s.Wire.device.config p.toNat := bitRead_reg _ _ _
  have ei : bitRead ((afterGet s reg_ptr_t.REG_CONFIG).Wire.device.reg
      reg_ptr_t.REG_INPUT.toNat % 256) p.toNat = bitRead s.Wire.device.input p.toNat :=
    bitRead_reg _ _ _
  have eo : bitRead ((afterGet s reg_ptr_t.REG_CONFIG).Wire.device.reg
      reg_ptr_t.REG_OUTPUT.toNat % 256) p.toNat = bitRead s.Wire.device.output p.toNat :=
    bitRead_reg _ _ _
  unfold getState getMode getPin
  rw [getReg_healthy s _ h]
  simp only [ec]
  by_cases hb : bitRead s.Wire.device.config p.toNat ≠ 0
  · rw [if_pos hb, if_pos hb, getReg_healthy _ _ h1]
    exact ei
  · rw [if_neg hb, if_neg hb, getReg_healthy _ _ h1]
    exact eo

/-- C14: on a bus where every transaction succeeds, for a pin whose CONFIGURATION bit is 1
(input) and any state value, `setState(p, s)` ends with the communication result 0, leaves
the CONFIGURATION, POLARITY and INPUT registers unchanged, and `getState(p)` returns after
the call what it returned before it. -/
theorem setState_on_input_pin (s : PCA9536) (p : pin_t) (newState : state_t)
    (h : s.Wire.healthy) (hin : bitRead s.Wire.device.config p.toNat = 1) :
    (s.setState p newState).getComResult = 0 ∧
      (s.setState p newState).Wire.device.config = s.Wire.device.config ∧
      (s.setState p newState).Wire.device.polarity = s.Wire.device.polarity ∧
      (s.setState p newState).Wire.device.input = s.Wire.device.input ∧
      ((s.setState p newState).getState p).1 = (s.getState p).1 := by
  have e : s.setState p newState =
      afterSet (afterGet s reg_ptr_t.REG_OUTPUT) reg_ptr_t.REG_OUTPUT
        (bitWrite (s.Wire.device.reg reg_ptr_t.REG_OUTPUT.toNat % 256) p.toNat
          newState.toNat) :=
    setPin_healthy s p _ _ (by decide) h
  have h2 : (s.setState p newState).Wire.healthy := by
    rw [e]
    exact afterSet_healthy _ _ _ (afterGet_healthy s _ h)
  have hcfg : (s.setState p newState).Wire.device.config = s.Wire.device.config := by
    rw [e]; rfl
  have hinp : (s.setState p newState).Wire.device.input = s.Wire.device.input := by
    rw [e]; rfl
  refine ⟨by rw [e]; rfl, hcfg, by rw [e]; rfl, hinp, ?_⟩
  rw [getState_healthy _ p h2, getState_healthy s p h, hcfg, hinp]
  simp [hin]

/-- Instance of `setState_on_input_pin`: pin 1 is an input (CONFIGURATION 0x03) and is
sensed high (INPUT 0x0A); driving it LOW changes nothing that `getState` sees. -/
theorem setState_on_input_pin_witness :
    (sampleDriver (sampleDevice 0x0F 0 0x03)).Wire.healthy ∧
      ((sampleDriver (sampleDevice 0x0F 0 0x03)).setState pin_t.IO1
        state_t.IO_LOW).getComResult = 0 ∧
      (((sampleDriver (sampleDevice 0x0F 0 0x03)).setState pin_t.IO1 state_t.IO_LOW).getState
        pin_t.IO1).1 = ((sampleDriver (sampleDevice 0x0F 0 0x03)).getState pin_t.IO1).1 :=
  have w := setState_on_input_pin (sampleDriver (sampleDevice 0x0F 0 0x03)) pin_t.IO1
    state_t.IO_LOW (by decide) (by decide)
  ⟨by decide, w.1, w.2.2.2.2⟩

/-- C15: on a bus where every transaction succeeds, for every pin p, whatever OUTPUT and
CONFIGURATION hold, `toggleState(p)` leaves OUTPUT equal to the prior OUTPUT, as the chip
presents it, XOR (1 << p): bit p is flipped and every other bit is as before, and the
CONFIGURATION and POLARITY registers are unchanged. When bits 4 to 7 of the registers are
0 the same holds of the stored OUTPUT byte. -/
theorem toggleState_flips_one_bit (s : PCA9536) (p : pin_t) (h : s.Wire.healthy) :
    (s.toggleState p).Wire.device.output =
        s.Wire.device.reg reg_ptr_t.REG_OUTPUT.toNat ^^^ (1 <<< p.toNat) ∧
      (∀ q : Nat, (s.toggleState p).Wire.device.output.testBit q =
        if q = p.toNat then !(s.Wire.device.reg reg_ptr_t.REG_OUTPUT.toNat).testBit q
        else (s.Wire.device.reg reg_ptr_t.REG_OUTPUT.toNat).testBit q) ∧
      (s.toggleState p).Wire.device.config = s.Wire.device.config ∧
      (s.toggleState p).Wire.device.polarity = s.Wire.device.polarity ∧
      (s.Wire.device.valid →
        (s.toggleState p).Wire.device.output = s.Wire.device.output ^^^ (1 <<< p.toNat) ∧
          ∀ q : Nat, (s.toggleState p).Wire.device.output.testBit q =
            if q = p.toNat then !s.Wire.device.output.testBit q
            else s.Wire.device.output.testBit q) := by
  have key := (toggleState_output s p h).1
  have bits : ∀ x q : Nat, (x ^^^ (1 <<< p.toNat)).testBit q =
      if q = p.toNat then !x.testBit q else x.testBit q := by
    intro x q
    rw [Nat.testBit_xor, Nat.one_shiftLeft, Nat.testBit_two_pow]
    by_cases hq : q = p.toNat
    · simp [hq]
    · have : ¬ p.toNat = q := fun e => hq e.symm
      simp [hq, this]
  refine ⟨key, ?_, by rw [toggleState_healthy s p h]; rfl,
    by rw [toggleState_healthy s p h]; rfl, ?_⟩
  · intro q
    rw [key]
    exact bits _ q
  · intro hd
    have r1 : s.Wire.device.reg reg_ptr_t.REG_OUTPUT.toNat = s.Wire.device.output :=
      (valid_reg _ hd).2.1
    rw [key, r1]
    exact ⟨rfl, fun q => bits _ q⟩

/-- Instance of `toggleState_flips_one_bit`: pin 2 on a chip whose OUTPUT holds 0x05 and
whose pins are all configured as inputs. -/
theorem toggleState_flips_one_bit_witness :
    (sampleDriver (sampleDevice 0x05 0x03 0x0F)).Wire.healthy ∧
      (sampleDriver (sampleDevice 0x05 0x03 0x0F)).Wire.device.valid ∧
      ((sampleDriver (sampleDevice 0x05 0x03 0x0F)).toggleState
        pin_t.IO2).Wire.device.output = 0x01 :=
  ⟨by decide, by decide,
    ((toggleState_flips_one_bit (sampleDriver (sampleDevice 0x05 0x03 0x0F)) pin_t.IO2
      (by decide)).2.2.2.2 (by decide)).1.trans (by decide)⟩

theorem toggleStateAll_healthy (s : PCA9536) (h : s.Wire.healthy) :
    s.toggleStateAll =
      afterSet (afterGet s reg_ptr_t.REG_OUTPUT) reg_ptr_t.REG_OUTPUT
        (bitNot INT_BITS (s.Wire.device.reg 1 % 256) % 256) := by
  unfold toggleStateAll
  rw [getReg_healthy s _ h]
  exact setReg_healthy _ _ _ (by decide) (afterGet_healthy s _ h)

theorem complement_byte (x : Nat) (hx : x < 256) :
    (bitNot INT_BITS (x % 256) % 256) % 256 = 255 - x := by
  unfold bitNot INT_BITS
  norm_num
  omega

theorem toggleStateAll_output (s : PCA9536) (h : s.Wire.healthy) :
    s.toggleStateAll.Wire.device.output =
        (255 - s.Wire.device.reg reg_ptr_t.REG_OUTPUT.toNat) % 16 ∧
      s.toggleStateAll.Wire.device.reg reg_ptr_t.REG_OUTPUT.toNat =
        (255 - s.Wire.device.reg reg_ptr_t.REG_OUTPUT.toNat) % 16 := by
  have hlt := reg_lt s.Wire.device reg_ptr_t.REG_OUTPUT.toNat
  have e : s.toggleStateAll.Wire.device.output =
      (255 - s.Wire.device.reg reg_ptr_t.REG_OUTPUT.toNat) % 16 := by
    rw [toggleStateAll_healthy s h, afterSet_output]
    show (bitNot INT_BITS (s.Wire.device.reg reg_ptr_t.REG_OUTPUT.toNat % 256) % 256) % 256 %
      16 = _
    rw [complement_byte _ (by omega)]
  refine ⟨e, ?_⟩
  rw [reg_output, e]
  exact Nat.mod_mod _ _

theorem toggleStateAll_keeps_healthy (s : PCA9536) (h : s.Wire.healthy) :
    s.toggleStateAll.Wire.healthy := by
  rw [toggleStateAll_healthy s h]
  exact afterSet_healthy _ _ _ (afterGet_healthy s _ h)

/-- C16: on a bus where every transaction succeeds, whatever value x the OUTPUT register
presents, the all-pins `toggleState()` writes 255 - x, the 8-bit complement of x, to
OUTPUT; the chip keeps the four pin bits of that byte, so the bit of each of the four pins
is flipped, and calling it twice restores x. When bits 4 to 7 of the registers are 0, x is
the stored OUTPUT byte itself. -/
theorem toggleStateAll_complements (s : PCA9536) (h : s.Wire.healthy) :
    s.toggleStateAll.Wire.trace.getLast? =
        some (BusEvent.transmit DEV_ADDR
          [reg_ptr_t.REG_OUTPUT.toNat,
            255 - s.Wire.device.reg reg_ptr_t.REG_OUTPUT.toNat] 0) ∧
      s.toggleStateAll.Wire.device.output =
        (255 - s.Wire.device.reg reg_ptr_t.REG_OUTPUT.toNat) % 16 ∧
      (∀ p : pin_t, bitRead s.toggleStateAll.Wire.device.output p.toNat =
        1 - bitRead s.Wire.device.output p.toNat) ∧
      s.toggleStateAll.toggleStateAll.Wire.device.reg reg_ptr_t.REG_OUTPUT.toNat =
        s.Wire.device.reg reg_ptr_t.REG_OUTPUT.toNat ∧
      (s.Wire.device.valid →
        s.toggleStateAll.Wire.trace.getLast? =
            some (BusEvent.transmit DEV_ADDR
              [reg_ptr_t.REG_OUTPUT.toNat, 255 - s.Wire.device.output] 0) ∧
          s.toggleStateAll.Wire.device.output = (255 - s.Wire.device.output) % 16 ∧
          s.toggleStateAll.toggleStateAll.Wire.device.output = s.Wire.device.output) := by
  have hlt := reg_lt s.Wire.device reg_ptr_t.REG_OUTPUT.toNat
  have hlt256 : s.Wire.device.reg reg_ptr_t.REG_OUTPUT.toNat < 256 := by omega
  obtain ⟨key, r1⟩ := toggleStateAll_output s h
  have h1 := toggleStateAll_keeps_healthy s h
  obtain ⟨o2, r2⟩ := toggleStateAll_output _ h1
  have tr : s.toggleStateAll.Wire.trace.getLast? =
      some (BusEvent.transmit DEV_ADDR
        [reg_ptr_t.REG_OUTPUT.toNat,
          255 - s.Wire.device.reg reg_ptr_t.REG_OUTPUT.toNat] 0) := by
    rw [toggleStateAll_healthy s h]
    simp only [afterSet, List.getLast?_concat]
    show some (BusEvent.transmit DEV_ADDR [reg_ptr_t.REG_OUTPUT.toNat,
      (bitNot INT_BITS (s.Wire.device.reg reg_ptr_t.REG_OUTPUT.toNat % 256) % 256) % 256] 0) = _
    rw [complement_byte _ hlt256]
  have twice : (255 - (255 - s.Wire.device.reg reg_ptr_t.REG_OUTPUT.toNat) % 16) % 16 =
      s.Wire.device.reg reg_ptr_t.REG_OUTPUT.toNat := by omega
  refine ⟨tr, key, ?_, ?_, ?_⟩
  · intro p
    have hp4 := pin_lt p
    have hp : p.toNat < 8 := by omega
    rw [key, bitRead_mod16 _ _ hp4, ← bitRead_mod16 s.Wire.device.output _ hp4,
      ← reg_output, bitRead_eq, bitRead_eq, byte_sub_eq_bitNot _ hlt256, bitNot_testBit]
    cases (s.Wire.device.reg reg_ptr_t.REG_OUTPUT.toNat).testBit p.toNat <;> simp [hp]
  · rw [r2, r1]
    exact twice
  · intro hd
    have e1 : s.Wire.device.reg reg_ptr_t.REG_OUTPUT.toNat = s.Wire.device.output :=
      (valid_reg _ hd).2.1
    refine ⟨?_, ?_, ?_⟩
    · rw [tr, e1]
    · rw [key, e1]
    · rw [o2, r1, twice, e1]

/-- Instance of `toggleStateAll_complements`: a chip whose OUTPUT holds 0x05. -/
theorem toggleStateAll_complements_witness :
    (sampleDriver (sampleDevice 0x05 0 0)).Wire.healthy ∧
      (sampleDriver (sampleDevice 0x05 0 0)).Wire.device.valid ∧
      (sampleDriver (sampleDevice 0x05 0 0)).toggleStateAll.Wire.trace.getLast? =
        some (BusEvent.transmit DEV_ADDR [1, 0xFA] 0) ∧
      (sampleDriver (sampleDevice 0x05 0 0)).toggleStateAll.Wire.device.output = 0x0A ∧
      (sampleDriver (sampleDevice 0x05 0 0)).toggleStateAll.toggleStateAll.Wire.device.output =
        0x05 :=
  have w := (toggleStateAll_complements (sampleDriver (sampleDevice 0x05 0 0))
    (by decide)).2.2.2.2 (by decide)
  ⟨by decide, by decide, w.1.trans (by decide), w.2.1.trans (by decide), w.2.2⟩

theorem bitWrite_mod256 (x p v : Nat) : bitWrite x p v % 256 = bitWrite x p v := by
  unfold bitWrite bitSet bitClear
  split <;> exact Nat.mod_mod _ _

theorem setPin_step (t : PCA9536) (p : pin_t) (r : reg_ptr_t) (v : Nat)
    (hr : r ≠ reg_ptr_t.REG_INPUT) (ht : t.Wire.healthy) :
    (t.setPin p r v).Wire.healthy ∧
      (t.setPin p r v).Wire.device =
        Device.store { t.Wire.device with pointer := r.toNat }
          (bitWrite (t.Wire.device.reg r.toNat % 256) p.toNat v) ∧
      (t.setPin p r v).Wire.trace =
        t.Wire.trace ++
          [BusEvent.transmit DEV_ADDR [r.toNat] 0,
           BusEvent.request DEV_ADDR 1 [t.Wire.device.reg r.toNat],
           BusEvent.read (t.Wire.device.reg r.toNat),
           BusEvent.transmit DEV_ADDR
             [r.toNat, bitWrite (t.Wire.device.reg r.toNat % 256) p.toNat v] 0] := by
  rw [setPin_healthy t p r v hr ht]
  refine ⟨afterSet_healthy _ _ _ (afterGet_healthy t r ht), ?_, ?_⟩
  · simp only [afterSet, afterGet, bitWrite_mod256]
  · simp only [afterSet, afterGet, bitWrite_mod256, List.append_assoc, List.cons_append,
      List.nil_append]

theorem store_reg (d : Device) (r : reg_ptr_t) (w : Nat) (hr : r ≠ reg_ptr_t.REG_INPUT) :
    (Device.store { d with pointer := r.toNat } w).reg r.toNat = w % 16 := by
  cases r <;>
  first
  | exact absurd rfl hr
  | (simp only [Device.store, Device.reg, reg_ptr_t.toNat]
     omega)

theorem mod16_mod256 (y : Nat) : y % 16 % 256 = y % 16 := by omega

set_option maxRecDepth 100000 in
theorem bitSet_bitClear_nibble : ∀ x < 16, ∀ p < 4, bitSet x p < 16 ∧ bitClear x p < 16 := by
  decide

theorem bitWrite_nibble (x p v : Nat) (hx : x < 16) (hp : p < 4) : bitWrite x p v < 16 := by
  unfold bitWrite
  split
  · exact (bitSet_bitClear_nibble x hx p hp).1
  · exact (bitSet_bitClear_nibble x hx p hp).2

theorem store_store (d : Device) (r : reg_ptr_t) (w1 w2 : Nat) :
    Device.store { Device.store { d with pointer := r.toNat } w1 with pointer := r.toNat } w2 =
      Device.store { d with pointer := r.toNat } w2 := by
  cases r <;> rfl

/-- C17: on a bus where every transaction succeeds, for every writable register r and all
values v0..v3, `setPins(r, v0, v1, v2, v3)` leaves the chip in the same state as the four
sequential calls `setPin(0, r, v0)`, `setPin(1, r, v1)`, `setPin(2, r, v2)`,
`setPin(3, r, v3)`, and adds one register read and one register write to the bus log where
the four calls add four of each. -/
theorem setPins_refines_sequential (s : PCA9536) (r : reg_ptr_t) (v0 v1 v2 v3 : Nat)
    (hr : r ≠ reg_ptr_t.REG_INPUT) (h : s.Wire.healthy) :
    (s.setPins r v0 v1 v2 v3).Wire.device = (setPinsSequential s r v0 v1 v2 v3).Wire.device ∧
      readCount (s.setPins r v0 v1 v2 v3).Wire.trace = readCount s.Wire.trace + 1 ∧
      writeCount (s.setPins r v0 v1 v2 v3).Wire.trace = writeCount s.Wire.trace + 1 ∧
      readCount (setPinsSequential s r v0 v1 v2 v3).Wire.trace =
        readCount s.Wire.trace + 4 ∧
      writeCount (setPinsSequential s r v0 v1 v2 v3).Wire.trace =
        writeCount s.Wire.trace + 4 := by
  obtain ⟨a1, d1, t1⟩ := setPin_step s pin_t.IO0 r v0 hr h
  obtain ⟨a2, d2, t2⟩ := setPin_step _ pin_t.IO1 r v1 hr a1
  obtain ⟨a3, d3, t3⟩ := setPin_step _ pin_t.IO2 r v2 hr a2
  obtain ⟨-, d4, t4⟩ := setPin_step _ pin_t.IO3 r v3 hr a3
  have hlen : ∀ b : Nat, decide (1 < [r.toNat, b].length) = true := by
    intro b; simp
  refine ⟨?_, ?_, ?_, ?_, ?_⟩
  · unfold setPinsSequential
    have w1 := bitWrite_nibble _ 0 v0 (reg_lt s.Wire.device r.toNat) (by decide)
    have w2 := bitWrite_nibble _ 1 v1 w1 (by decide)
    have w3 := bitWrite_nibble _ 2 v2 w2 (by decide)
    rw [d4, d3, d2, d1, setPins_healthy s r v0 v1 v2 v3 hr h]
    simp only [store_reg _ _ _ hr, store_store, mod16_mod256, reg_mod256, pin_t.toNat]
    rw [Nat.mod_eq_of_lt w1, Nat.mod_eq_of_lt w2, Nat.mod_eq_of_lt w3]
    simp only [afterSet, afterGet, bitWrite_mod256, reg_mod256]
  · rw [setPins_healthy s r v0 v1 v2 v3 hr h]
    simp [afterSet, afterGet, readCount, List.countP_append, List.countP_cons,
      BusEvent.isRequest]
  · rw [setPins_healthy s r v0 v1 v2 v3 hr h]
    simp [afterSet, afterGet, writeCount, List.countP_append, List.countP_cons,
      BusEvent.isDataWrite]
  · unfold setPinsSequential
    rw [t4, t3, t2, t1]
    simp [readCount, List.countP_append, List.countP_cons, BusEvent.isRequest]
  · unfold setPinsSequential
    rw [t4, t3, t2, t1]
    simp [writeCount, List.countP_append, List.countP_cons, BusEvent.isDataWrite]

/-- Instance of `setPins_refines_sequential`: the pattern 1,0,1,0 on CONFIGURATION
0x0A. -/
theorem setPins_refines_sequential_witness :
    (sampleDriver (sampleDevice 0 0 0x0A)).Wire.healthy ∧
      ((sampleDriver (sampleDevice 0 0 0x0A)).setPins reg_ptr_t.REG_CONFIG 1 0 1
        0).Wire.device =
        (setPinsSequential (sampleDriver (sampleDevice 0 0 0x0A)) reg_ptr_t.REG_CONFIG 1 0 1
          0).Wire.device ∧
      readCount ((sampleDriver (sampleDevice 0 0 0x0A)).setPins reg_ptr_t.REG_CONFIG 1 0 1
        0).Wire.trace = 1 ∧
      readCount (setPinsSequential (sampleDriver (sampleDevice 0 0 0x0A))
        reg_ptr_t.REG_CONFIG 1 0 1 0).Wire.trace = 4 :=
  have w := setPins_refines_sequential (sampleDriver (sampleDevice 0 0 0x0A))
    reg_ptr_t.REG_CONFIG 1 0 1 0 (by decide) (by decide)
  ⟨by decide, w.1, w.2.1, w.2.2.2.1⟩

theorem bitWrite_zero (p : pin_t) (v : Nat) (hv : v = 0 ∨ v = 1) :
    bitWrite 0 p.toNat v = v <<< p.toNat := by
  rcases hv with rfl | rfl <;> cases p <;> decide

theorem shiftLeft_pin_mod (p : pin_t) (v : Nat) (hv : v = 0 ∨ v = 1) :
    (v <<< p.toNat) % 256 = v <<< p.toNat := by
  rcases hv with rfl | rfl <;> cases p <;> decide

theorem shiftLeft_pin_mod16 (p : pin_t) (v : Nat) (hv : v = 0 ∨ v = 1) :
    (v <<< p.toNat) % 16 = v <<< p.toNat := by
  rcases hv with rfl | rfl <;> cases p <;> decide

theorem setReg_acked_device (t : PCA9536) (r : reg_ptr_t) (x : Nat)
    (hr : r ≠ reg_ptr_t.REG_INPUT) (h : t.Wire.statuses.headD 0 = 0) :
    (t.setReg r x).Wire.device.reg r.toNat = x % 16 ∧ (t.setReg r x).getComResult = 0 := by
  rw [setReg_acked t r x hr h]
  exact ⟨afterSet_reg _ _ _ hr, rfl⟩

/-- C18: `setPin` goes on when its read fails. For every pin p, writable register r and bit
value v, if the read inside `setPin(p, r, v)` fails, by a commit error or by a short read,
the write transaction is still issued from the state the read left, with the data byte
`v << p` computed from 0; when that write is acknowledged the chip's register r holds
`v << p`, so every bit other than bit p is cleared, and the communication result is 0. -/
theorem setPin_after_failed_read (s : PCA9536) (p : pin_t) (r : reg_ptr_t) (v : Nat)
    (hr : r ≠ reg_ptr_t.REG_INPUT) (hv : v = 0 ∨ v = 1)
    (hf : ((s.initCall r).endCall).getComResult ≠ COM_SUCCESS ∨
      (((s.initCall r).endCall).getComResult = COM_SUCCESS ∧
        (((s.initCall r).endCall).Wire.requestFrom DEV_ADDR NUM_BYTES).2.available ≠
          NUM_BYTES)) :
    s.setPin p r v = (s.getReg r).2.setReg r (v <<< p.toNat) ∧
      (s.setPin p r v).Wire.trace =
        (s.getReg r).2.Wire.trace ++
          [BusEvent.transmit DEV_ADDR [r.toNat, v <<< p.toNat]
            ((s.getReg r).2.Wire.statuses.headD 0)] ∧
      ((s.getReg r).2.Wire.statuses.headD 0 = 0 →
        (s.setPin p r v).Wire.device.reg r.toNat = v <<< p.toNat ∧
          (∀ q : Nat, q ≠ p.toNat →
            ((s.setPin p r v).Wire.device.reg r.toNat).testBit q = false) ∧
          (s.setPin p r v).getComResult = 0) := by
  have h0 : (s.getReg r).1 = 0 := by
    rcases hf with hc | ⟨-, hs⟩
    · rw [getReg_commit_failed s r hc]
    · exact getReg_short s r hs
  have e : s.setPin p r v = (s.getReg r).2.setReg r (v <<< p.toNat) := by
    unfold setPin
    simp only [h0, bitWrite_zero p v hv]
  refine ⟨e, ?_, ?_⟩
  · rw [e, (setReg_status _ r _ hr).2, shiftLeft_pin_mod p v hv]
  · intro hw
    have hd := setReg_acked_device (s.getReg r).2 r (v <<< p.toNat) hr hw
    rw [shiftLeft_pin_mod16 p v hv] at hd
    rw [e]
    refine ⟨hd.1, ?_, hd.2⟩
    intro q hq
    rw [hd.1]
    rcases hv with rfl | rfl
    · simp
    · rw [Nat.one_shiftLeft, Nat.testBit_two_pow]
      simp [Ne.symm hq]

/-- Instances of `setPin_after_failed_read` on a chip whose OUTPUT holds 0x0F: the read is
answered with status 2, and the read is cut short (no byte arrives, the probe returns 4);
in both the write is acknowledged and OUTPUT ends as 0x02. -/
theorem setPin_after_failed_read_witness :
    (((faultyDriver (sampleDevice 0x0F 0 0) [2, 0] []).setPin pin_t.IO1
          reg_ptr_t.REG_OUTPUT 1).Wire.device.output = 0x02 ∧
        ((faultyDriver (sampleDevice 0x0F 0 0) [2, 0] []).setPin pin_t.IO1
          reg_ptr_t.REG_OUTPUT 1).getComResult = 0) ∧
      (((faultyDriver (sampleDevice 0x0F 0 0) [0, 4, 0] [some []]).setPin pin_t.IO1
          reg_ptr_t.REG_OUTPUT 1).Wire.device.output = 0x02 ∧
        ((faultyDriver (sampleDevice 0x0F 0 0) [0, 4, 0] [some []]).setPin pin_t.IO1
          reg_ptr_t.REG_OUTPUT 1).getComResult = 0) :=
  have w1 := (setPin_after_failed_read (faultyDriver (sampleDevice 0x0F 0 0) [2, 0] [])
    pin_t.IO1 reg_ptr_t.REG_OUTPUT 1 (by decide) (Or.inr rfl) (Or.inl (by decide))).2.2
    (by decide)
  have w2 := (setPin_after_failed_read
    (faultyDriver (sampleDevice 0x0F 0 0) [0, 4, 0] [some []]) pin_t.IO1
    reg_ptr_t.REG_OUTPUT 1 (by decide) (Or.inr rfl)
    (Or.inr ⟨by decide, by decide⟩)).2.2 (by decide)
  ⟨⟨w1.1, w1.2.2⟩, ⟨w2.1, w2.2.2⟩⟩

/-- C19: in every state, `ping` returns the status of a transaction to the device address
that carries no byte, and leaves the stored communication result, and the chip, as they
were; `getComResult` is a function of the driver state alone that returns the stored
value. -/
theorem ping_keeps_comResult (s : PCA9536) :
    s.ping.1 = s.Wire.statuses.headD 0 ∧
      s.ping.2.Wire.trace = s.Wire.trace ++ [BusEvent.transmit DEV_ADDR [] s.ping.1] ∧
      s.ping.2.getComResult = s.getComResult ∧
      s.ping.2.Wire.device = s.Wire.device ∧
      s.ping.2.Wire.statuses = s.Wire.statuses.tail ∧
      s.getComResult = s._comBuffer := by
  refine ⟨rfl, rfl, rfl, ?_, rfl, rfl⟩
  simp [ping, TwoWire.beginTransmission, TwoWire.endTransmission, Device.receive]

end Pca9536
